import Mathlib

/-!
# Verification of the timber-frame construction planner

A shallow embedding, in Lean 4, of the core algorithms of the planner:
the stud-layout routine, the best-fit stock-cutting optimizer, the
beam-deflection statics engine, the diagonal-brace solver and the
dimension-search loop, together with theorems settling the specification
claims about them.

Numbers are embedded as exact rationals (`ℚ`) wherever the source only
adds, subtracts, multiplies, divides and compares (the source computes in
IEEE doubles; the embedding idealizes rounding away).  Functions whose
source uses trigonometry or square roots (`Math.asin`, `Math.hypot`,
`Math.tan`) are embedded over the reals.  Several list-manipulating
definitions are stated over an arbitrary linear ordered field so the same
embedding serves both the rational and the real layer.
-/

namespace Holzbau

/-! ## JavaScript string membership

The source classifies parts with `key.includes('rafter')` and similar
substring tests.  `jsIncludes s sub` mirrors `s.includes(sub)`. -/

/-- `leadsWith needle hay` is true when `needle` is an initial segment of
`hay` (character lists). -/
def leadsWith : List Char → List Char → Bool
  | [], _ => true
  | _ :: _, [] => false
  | a :: as, b :: bs => a == b && leadsWith as bs

/-- `hasSub needle hay`: `needle` occurs contiguously inside `hay`. -/
def hasSub (needle : List Char) : List Char → Bool
  | [] => needle.isEmpty
  | b :: bs => leadsWith needle (b :: bs) || hasSub needle bs

/-- JavaScript's `hay.includes(needle)`. -/
def jsIncludes (hay needle : String) : Bool :=
  hasSub needle.data hay.data

/-- JavaScript truthiness of an optional numeric field (`undefined` and
`0` are falsy). -/
def jsTruthy : Option ℚ → Bool
  | none => false
  | some x => decide (x ≠ 0)

section StudLayout

variable {α : Type*} [LinearOrderedField α] [FloorRing α]

/-! ## `calculateStudLayout` (drawingUtils)

```
if (totalLength < studThickness * 2)
  return { positions: [t/2, L - t/2], spacings: [L - t] };
const positions = [t/2];  let currentPos = t/2;
const endPos = L - t/2;
while (currentPos + s < endPos - s/2) { currentPos += s; positions.push(currentPos); }
positions.push(endPos);
spacings[i] = positions[i+1] - positions[i];
```
-/

/-- Positions and inter-stud spacings of a wall run. -/
structure StudLayout (α : Type*) where
  positions : List α
  spacings : List α
deriving DecidableEq

/-- The `while` loop of `calculateStudLayout`: starting after `currentPos`,
advance by `standardSpacing` while staying at least half a spacing short of
`endPos`, collecting each new position.  The source loop would not
terminate for a non-positive spacing; the embedding exits immediately in
that case (all claims assume a positive spacing). -/
def studLoop [FloorRing α] (standardSpacing endPos : α) (currentPos : α) : List α :=
  if h : 0 < standardSpacing ∧
      currentPos + standardSpacing < endPos - standardSpacing / 2 then
    (currentPos + standardSpacing) ::
      studLoop standardSpacing endPos (currentPos + standardSpacing)
  else
    []
termination_by (⌈(endPos - currentPos) / standardSpacing⌉).toNat
decreasing_by
  obtain ⟨hs, hlt⟩ := h
  have h1 : (endPos - (currentPos + standardSpacing)) / standardSpacing
      = (endPos - currentPos) / standardSpacing - 1 := by
    field_simp
    ring
  have h2 : (1 : α) < (endPos - currentPos) / standardSpacing := by
    rw [lt_div_iff₀ hs]
    nlinarith
  have h3 : (1 : ℤ) < ⌈(endPos - currentPos) / standardSpacing⌉ := by
    rw [Int.lt_ceil]
    exact_mod_cast h2
  rw [h1, Int.ceil_sub_one]
  omega

/-- Consecutive differences of a list (the `spacings` computation). -/
def diffsList : List α → List α
  | a :: b :: rest => (b - a) :: diffsList (b :: rest)
  | _ => []

/-- `calculateStudLayout` from `drawingUtils`. -/
def calculateStudLayout (totalLength studThickness standardSpacing : α) :
    StudLayout α :=
  if totalLength < studThickness * 2 then
    { positions := [studThickness / 2, totalLength - studThickness / 2],
      spacings := [totalLength - studThickness] }
  else
    let endPos := totalLength - studThickness / 2
    let positions := studThickness / 2 ::
      (studLoop standardSpacing endPos (studThickness / 2) ++ [endPos])
    { positions := positions, spacings := diffsList positions }

/-- Every position produced by the loop stays strictly more than half a
spacing short of `endPos`. -/
theorem studLoop_mem_lt (s e : α) :
    ∀ c, ∀ x ∈ studLoop s e c, x < e - s / 2 := by
  intro c
  induction c using studLoop.induct s e with
  | case1 c h ih =>
    rw [studLoop, dif_pos h]
    intro x hx
    rcases List.mem_cons.mp hx with hx | hx
    · exact hx ▸ h.2
    · exact ih x hx
  | case2 c h =>
    rw [studLoop, dif_neg h]
    intro x hx
    exact absurd hx (List.not_mem_nil x)

/-- The loop output, prefixed with its starting position, is strictly
increasing. -/
theorem studLoop_chain (s e : α) (hs : 0 < s) :
    ∀ c, List.Chain (· < ·) c (studLoop s e c) := by
  intro c
  induction c using studLoop.induct s e with
  | case1 c h ih =>
    rw [studLoop, dif_pos h]
    exact List.Chain.cons (by linarith) ih
  | case2 c h =>
    rw [studLoop, dif_neg h]
    exact List.Chain.nil

/-- Consecutive differences along the loop output are all exactly the
standard spacing. -/
theorem studLoop_diffs (s e : α) :
    ∀ c, diffsList (c :: studLoop s e c) =
      List.replicate (studLoop s e c).length s := by
  intro c
  induction c using studLoop.induct s e with
  | case1 c h ih =>
    rw [studLoop, dif_pos h]
    simp only [diffsList, List.length_cons, List.replicate_succ, ih]
    have hc : c + s - c = s := by ring
    rw [hc]
  | case2 c h =>
    rw [studLoop, dif_neg h]
    rfl

/-- `diffsList` of a list with one element appended: the old differences
followed by the gap from the old last element to the new one. -/
theorem diffsList_concat (a e : α) (l : List α) :
    diffsList (a :: l ++ [e])
      = diffsList (a :: l) ++ [e - (a :: l).getLast (List.cons_ne_nil a l)] := by
  induction l generalizing a with
  | nil => simp [diffsList]
  | cons b t ih =>
    rw [show diffsList (a :: (b :: t) ++ [e])
        = (b - a) :: diffsList (b :: t ++ [e]) from rfl, ih b]
    simp [diffsList, List.getLast_cons]

/-- Appending an upper bound to an increasing chain keeps it a chain. -/
theorem chain_append_last {β : Type*} {R : β → β → Prop} (e : β) :
    ∀ (a : β) (l : List β), List.Chain R a l → (∀ x ∈ l, R x e) → R a e →
      List.Chain R a (l ++ [e]) := by
  intro a l
  induction l generalizing a with
  | nil =>
    intro _ _ hae
    exact List.Chain.cons hae List.Chain.nil
  | cons b t ih =>
    intro hc hmem hae
    rcases List.chain_cons.mp hc with ⟨hab, hbt⟩
    exact List.Chain.cons hab
      (ih b hbt (fun x hx => hmem x (List.mem_cons_of_mem b hx))
        (hmem b (List.mem_cons_self b t)))

end StudLayout

/-- C3: for wall length `L ≥ 2t` with stud thickness `t > 0` and target
spacing `s > 0`, `calculateStudLayout` returns strictly increasing
positions starting at `t/2` and ending at `L - t/2`, with every spacing
except possibly the last at most `s`; for `L < 2t` it returns exactly the
two end positions. -/
theorem studLayout_spec (L t s : ℚ) (ht : 0 < t) (hs : 0 < s) :
    (t * 2 ≤ L →
      List.Chain' (· < ·) (calculateStudLayout L t s).positions ∧
      (calculateStudLayout L t s).positions.head? = some (t / 2) ∧
      (calculateStudLayout L t s).positions.getLast? = some (L - t / 2) ∧
      ∀ d ∈ (calculateStudLayout L t s).spacings.dropLast, d ≤ s) ∧
    (L < t * 2 →
      (calculateStudLayout L t s).positions = [t / 2, L - t / 2]) := by
  constructor
  · intro hL
    have hbr : ¬ (L < t * 2) := not_lt.mpr hL
    have hxe : t / 2 < L - t / 2 := by linarith
    have hmem : ∀ y ∈ studLoop s (L - t / 2) (t / 2), y < L - t / 2 := by
      intro y hy
      have := studLoop_mem_lt s (L - t / 2) (t / 2) y hy
      linarith
    have hchain : List.Chain (· < ·) (t / 2)
        (studLoop s (L - t / 2) (t / 2) ++ [L - t / 2]) :=
      chain_append_last (L - t / 2) (t / 2) _
        (studLoop_chain s (L - t / 2) hs (t / 2)) hmem hxe
    simp only [calculateStudLayout, if_neg hbr]
    refine ⟨hchain, rfl, ?_, ?_⟩
    · show (((t / 2) :: studLoop s (L - t / 2) (t / 2)) ++
        [L - t / 2]).getLast? = some (L - t / 2)
      exact List.getLast?_concat _
    · intro d hd
      rw [← List.cons_append,
        diffsList_concat (t / 2) (L - t / 2) (studLoop s (L - t / 2) (t / 2)),
        studLoop_diffs, List.dropLast_concat] at hd
      exact le_of_eq (List.eq_of_mem_replicate hd)
  · intro hL
    simp only [calculateStudLayout, if_pos hL]

section Cutting

variable {α : Type*} [LinearOrderedField α] [FloorRing α]

/-! ## `optimizeCuttingList` (drawingUtils)

Best-fit-decreasing stock cutting:

```
const sortedCuts = [...allCuts].sort((a, b) => b - a);
for (const cut of sortedCuts) {
  if (cut > stockLength) { console.warn(...); continue; }
  // scan bins for smallest remaining length that still fits cut + kerf
  // place there, else open a new bin with stock - cut - kerf remaining
}
// group bins by the string key joining (c*100).toFixed(1) per cut
```
-/

/-- Stable insertion into a descending list (one step of
`sort((a, b) => b - a)`). -/
def insertDesc (x : α) : List α → List α
  | [] => [x]
  | y :: t => if y < x then x :: y :: t else y :: insertDesc x t

/-- Descending sort by repeated insertion. -/
def sortDesc (l : List α) : List α := l.foldr insertDesc []

/-- An open stock bin during packing: the cuts placed into it in placement
order (`bins[i]`) and its remaining usable length
(`remainingLengths[i]`). -/
structure OpenBin (α : Type*) where
  cuts : List α
  rem : α
deriving DecidableEq

/-- Does bin remainder `r` accommodate `need` and beat the best remainder
found so far (`remainingLengths[i] >= cut + kerf &&
remainingLengths[i] < minRemaining`, `minRemaining` starting at
`Infinity`)? -/
def fitsBetter (need r : α) : Option (ℕ × α) → Bool
  | none => decide (need ≤ r)
  | some (_, m) => decide (need ≤ r) && decide (r < m)

/-- The best-fit scan over the open bins' remaining lengths, left to
right, returning the index (and remainder) of the tightest bin that still
accommodates `need`; the first of several equally tight bins wins. -/
def bestFitScan (need : α) : List α → ℕ → Option (ℕ × α) → Option (ℕ × α)
  | [], _, best => best
  | r :: rest, i, best =>
    bestFitScan need rest (i + 1)
      (if fitsBetter need r best then some (i, r) else best)

/-- Replace the element at index `i` by its image under `f`. -/
def updateAt {β : Type*} (f : β → β) : ℕ → List β → List β
  | _, [] => []
  | 0, x :: t => f x :: t
  | i + 1, x :: t => x :: updateAt f i t

/-- One iteration of the packing loop: skip a cut longer than the stock,
otherwise place it into the best-fitting open bin, or open a new bin with
remaining length `stock - cut - kerf`. -/
def placeCut (stockLength kerf : α) (bins : List (OpenBin α)) (cut : α) :
    List (OpenBin α) :=
  if stockLength < cut then bins
  else
    match bestFitScan (cut + kerf) (bins.map OpenBin.rem) 0 none with
    | some (i, _) =>
        updateAt (fun b => ⟨b.cuts ++ [cut], b.rem - (cut + kerf)⟩) i bins
    | none => bins ++ [⟨[cut], stockLength - cut - kerf⟩]

/-- The packing phase of `optimizeCuttingList`. -/
def packCuts (allCuts : List α) (stockLength kerf : α) : List (OpenBin α) :=
  (sortDesc allCuts).foldl (placeCut stockLength kerf) []

/-- The rounded key of a bin: the source keys the summary record by the
string joining `(c*100).toFixed(1)` over the bin's cuts, so two bins share
a key exactly when each cut, in centimetres rounded to one decimal,
agrees; the key is modelled as that list of rounded integers
(`round (c·100·10)`). -/
def binKey (cuts : List α) : List ℤ :=
  cuts.map (fun c => round (c * 100 * 10))

/-- A grouped cutting-plan entry: the descending-sorted cut pattern of the
first bin with this key, and how many packed bins share the key. -/
structure BinGroup (α : Type*) where
  cuts : List α
  count : ℕ
deriving DecidableEq

/-- Add one packed (already sorted) bin to the grouped summary
(`cuttingPlanSummary`): bump the count of the first entry with the same
rounded key, or append a fresh entry with count 1. -/
def addBinGroup (b : List α) : List (BinGroup α) → List (BinGroup α)
  | [] => [⟨b, 1⟩]
  | g :: t =>
    if binKey g.cuts = binKey b then ⟨g.cuts, g.count + 1⟩ :: t
    else g :: addBinGroup b t

/-- The structured cutting plan (the human-readable summary text is
display-only and not modelled). -/
structure CuttingPlan (α : Type*) where
  stockLength : α
  kerf : α
  bins : List (BinGroup α)
deriving DecidableEq

/-- `optimizeCuttingList` from `drawingUtils`. -/
def optimizeCuttingList (allCuts : List α) (stockLength kerf : α) :
    CuttingPlan α :=
  let bins := packCuts allCuts stockLength kerf
  let structuredBins :=
    (bins.map (fun b => sortDesc b.cuts)).foldl
      (fun acc b => addBinGroup b acc) []
  ⟨stockLength, kerf, structuredBins⟩

/-- The bin content as the claim counts it: the cuts plus one kerf per
placed cut. -/
def binLoad (kerf : α) (cuts : List α) : α :=
  cuts.sum + kerf * cuts.length

end Cutting

section CuttingProofs

variable {α : Type*} [LinearOrderedField α] [FloorRing α]

/-- A successful `fitsBetter` requires that the remainder accommodates the
requested length. -/
theorem fitsBetter_le (need r : α) (best : Option (ℕ × α)) :
    fitsBetter need r best = true → need ≤ r := by
  cases best with
  | none => simp [fitsBetter]
  | some p =>
    simp only [fitsBetter, Bool.and_eq_true, decide_eq_true_eq]
    exact fun h => h.1

/-- Where the best-fit scan reports a bin, that bin exists, has the
reported remainder, and accommodates the requested length. -/
theorem bestFitScan_found (need : α) :
    ∀ (rems : List α) (i : ℕ) (best : Option (ℕ × α)) (j : ℕ) (m : α),
      bestFitScan need rems i best = some (j, m) →
      best = some (j, m) ∨
        (i ≤ j ∧ j - i < rems.length ∧ rems[j - i]? = some m ∧ need ≤ m) := by
  intro rems
  induction rems with
  | nil =>
    intro i best j m h
    exact Or.inl h
  | cons r rest ih =>
    intro i best j m h
    rw [bestFitScan] at h
    rcases ih (i + 1) _ j m h with h' | ⟨hij, hlen, hget, hneed⟩
    · by_cases hf : fitsBetter need r best
      · rw [if_pos hf] at h'
        obtain ⟨hj, hm⟩ : i = j ∧ r = m := by
          simpa [Prod.ext_iff] using h'
        subst hj
        subst hm
        exact Or.inr ⟨le_refl i, by simp, by simp, fitsBetter_le need r best hf⟩
      · rw [if_neg hf] at h'
        exact Or.inl h'
    · refine Or.inr ⟨by omega, by simp only [List.length_cons]; omega, ?_, hneed⟩
      have hk : j - i = (j - (i + 1)) + 1 := by omega
      rw [hk]
      simpa using hget
  -- termination of the scan is structural on the list

/-- The initial best-fit call: a reported bin index is in range, carries
its remainder, and accommodates the requested length. -/
theorem bestFitScan_init (need : α) (rems : List α) (j : ℕ) (m : α)
    (h : bestFitScan need rems 0 none = some (j, m)) :
    j < rems.length ∧ rems[j]? = some m ∧ need ≤ m := by
  rcases bestFitScan_found need rems 0 none j m h with h' | ⟨_, hlen, hget, hneed⟩
  · exact absurd h' (by simp)
  · simpa using ⟨hlen, hget, hneed⟩

/-- `updateAt` replaces exactly the indexed element. -/
theorem updateAt_eq {β : Type*} (f : β → β) :
    ∀ (i : ℕ) (l : List β) (x : β), l[i]? = some x →
      updateAt f i l = l.take i ++ f x :: l.drop (i + 1) := by
  intro i
  induction i with
  | zero =>
    intro l x h
    cases l with
    | nil => simp at h
    | cons y t =>
      obtain rfl : y = x := by simpa using h
      rfl
  | succ i ih =>
    intro l x h
    cases l with
    | nil => simp at h
    | cons y t =>
      have ht : t[i]? = some x := by simpa using h
      show y :: updateAt f i t = y :: (t.take i ++ f x :: t.drop (i + 1))
      rw [ih t x ht]

/-- The packing invariant of an open bin: it is nonempty, its remainder is
the exact bookkeeping value, its cuts plus one kerf per cut beyond the
first fit into the stock, and every cut fits the stock on its own. -/
def GoodBin (stock kerf : α) (b : OpenBin α) : Prop :=
  b.cuts ≠ [] ∧
  b.rem = stock - b.cuts.sum - kerf * b.cuts.length ∧
  b.cuts.sum + kerf * b.cuts.length ≤ stock + kerf ∧
  ∀ c ∈ b.cuts, c ≤ stock

/-- A packing step preserves the bin invariant. -/
theorem placeCut_good (stock kerf : α) (hk : 0 ≤ kerf)
    (bins : List (OpenBin α)) (cut : α)
    (hb : ∀ b ∈ bins, GoodBin stock kerf b) :
    ∀ b ∈ placeCut stock kerf bins cut, GoodBin stock kerf b := by
  intro b hmem
  rw [placeCut] at hmem
  by_cases hskip : stock < cut
  · rw [if_pos hskip] at hmem
    exact hb b hmem
  rw [if_neg hskip] at hmem
  rcases hscan : bestFitScan (cut + kerf) (bins.map OpenBin.rem) 0 none with
    _ | ⟨i, m⟩
  · rw [hscan] at hmem
    have hmem' : b ∈ bins ++ [(⟨[cut], stock - cut - kerf⟩ : OpenBin α)] := hmem
    rcases List.mem_append.mp hmem' with h | h
    · exact hb b h
    · obtain rfl : b = ⟨[cut], stock - cut - kerf⟩ := by simpa using h
      refine ⟨by simp, by simp, by simp; linarith [not_lt.mp hskip], ?_⟩
      intro c hc
      obtain rfl : c = cut := by simpa using hc
      exact not_lt.mp hskip
  · rw [hscan] at hmem
    have hmem' : b ∈ updateAt
        (fun b => (⟨b.cuts ++ [cut], b.rem - (cut + kerf)⟩ : OpenBin α))
        i bins := hmem
    obtain ⟨hlt, hget, hneed⟩ := bestFitScan_init _ _ _ _ hscan
    rw [List.getElem?_map] at hget
    rcases hx : bins[i]? with _ | x
    · rw [hx] at hget
      simp at hget
    rw [hx] at hget
    have hm : x.rem = m := by simpa using hget
    have hxmem : x ∈ bins := List.getElem?_mem hx
    obtain ⟨hne, hrem, hbound, hcuts⟩ := hb x hxmem
    rw [updateAt_eq _ i bins x hx] at hmem'
    rcases List.mem_append.mp hmem' with h | h
    · exact hb b (List.mem_of_mem_take h)
    rcases List.mem_cons.mp h with h | h
    · subst h
      have hfit : cut + kerf ≤ stock - x.cuts.sum - kerf * x.cuts.length := by
        rw [← hrem, hm]
        exact hneed
      refine ⟨by simp, ?_, ?_, ?_⟩
      · show x.rem - (cut + kerf)
          = stock - (x.cuts ++ [cut]).sum - kerf * (x.cuts ++ [cut]).length
        rw [hrem]
        simp
        push_cast
        ring
      · show (x.cuts ++ [cut]).sum + kerf * (x.cuts ++ [cut]).length
          ≤ stock + kerf
        simp
        push_cast
        linarith
      · intro c hc
        rcases List.mem_append.mp hc with hc | hc
        · exact hcuts c hc
        · obtain rfl : c = cut := by simpa using hc
          exact not_lt.mp hskip
    · exact hb b (List.mem_of_mem_drop h)

/-- All bins produced by the packing fold satisfy the invariant. -/
theorem foldPlace_good (stock kerf : α) (hk : 0 ≤ kerf) :
    ∀ (l : List α) (bins : List (OpenBin α)),
      (∀ b ∈ bins, GoodBin stock kerf b) →
      ∀ b ∈ l.foldl (placeCut stock kerf) bins, GoodBin stock kerf b := by
  intro l
  induction l with
  | nil => intro bins hb; exact hb
  | cons c t ih =>
    intro bins hb
    exact ih (placeCut stock kerf bins c) (placeCut_good stock kerf hk bins c hb)

/-- All cuts placed so far, in bin order. -/
def placedCuts (bins : List (OpenBin α)) : List α :=
  (bins.map OpenBin.cuts).flatten

/-- Inserting an element at the end of the middle block of a three-block
concatenation permutes to consing it in front. -/
theorem perm_insert_middle {β : Type*} (A xc B : List β) (cut : β) :
    List.Perm (A ++ (xc ++ (cut :: B))) (cut :: (A ++ (xc ++ B))) := by
  have h := @List.perm_middle β cut (A ++ xc) B
  rw [List.append_assoc] at h
  rw [List.append_assoc] at h
  exact h

/-- A packing step either skips the cut (too long for the stock) or adds
it to exactly one bin. -/
theorem placeCut_placed (stock kerf : α) (bins : List (OpenBin α)) (cut : α) :
    List.Perm (placedCuts (placeCut stock kerf bins cut))
      (if stock < cut then placedCuts bins else cut :: placedCuts bins) := by
  rw [placeCut]
  by_cases hskip : stock < cut
  · rw [if_pos hskip, if_pos hskip]
  rw [if_neg hskip, if_neg hskip]
  rcases hscan : bestFitScan (cut + kerf) (bins.map OpenBin.rem) 0 none with
    _ | ⟨i, m⟩
  · show List.Perm (placedCuts (bins ++ [⟨[cut], stock - cut - kerf⟩])) _
    rw [placedCuts, List.map_append, List.flatten_append]
    simpa [placedCuts] using
      List.perm_append_singleton cut ((bins.map OpenBin.cuts).flatten)
  · obtain ⟨hlt, hget, _⟩ := bestFitScan_init _ _ _ _ hscan
    rw [List.getElem?_map] at hget
    rcases hx : bins[i]? with _ | x
    · rw [hx] at hget
      simp at hget
    have hdecomp : bins = bins.take i ++ x :: bins.drop (i + 1) := by
      have hi : i < bins.length := by simpa using hlt
      conv_lhs => rw [← List.take_append_drop i bins]
      rw [List.drop_eq_getElem_cons hi]
      have hbx : bins[i] = x := by
        have hx' := hx
        rw [List.getElem?_eq_getElem hi] at hx'
        simpa using hx'
      rw [hbx]
    show (placedCuts (updateAt
        (fun b => (⟨b.cuts ++ [cut], b.rem - (cut + kerf)⟩ : OpenBin α))
        i bins)).Perm (cut :: placedCuts bins)
    rw [updateAt_eq _ i bins x hx]
    conv_rhs => rw [hdecomp]
    simp only [placedCuts, List.map_append, List.map_cons,
      List.flatten_append, List.flatten_cons, List.append_assoc,
      List.singleton_append]
    exact perm_insert_middle _ _ _ _

/-- The packing fold places exactly the feasible cuts (those at most the
stock length), in some order; infeasible cuts are skipped without
disturbing the rest. -/
theorem foldPlace_placed (stock kerf : α) :
    ∀ (l : List α) (bins : List (OpenBin α)),
      List.Perm (placedCuts (l.foldl (placeCut stock kerf) bins))
        (l.filter (fun c => decide (c ≤ stock)) ++ placedCuts bins) := by
  intro l
  induction l with
  | nil => intro bins; simp
  | cons c t ih =>
    intro bins
    rw [List.foldl_cons]
    refine (ih (placeCut stock kerf bins c)).trans ?_
    have hstep := placeCut_placed stock kerf bins c
    by_cases hc : c ≤ stock
    · rw [if_neg (not_lt.mpr hc)] at hstep
      rw [List.filter_cons_of_pos (by simpa using hc)]
      exact ((List.Perm.append_left _ hstep).trans List.perm_middle)
    · rw [if_pos (not_le.mp hc)] at hstep
      rw [List.filter_cons_of_neg (by simpa using hc)]
      exact List.Perm.append_left _ hstep

/-- One insertion step of the descending sort is a permutation. -/
theorem insertDesc_perm (x : α) : ∀ l : List α, List.Perm (insertDesc x l) (x :: l) := by
  intro l
  induction l with
  | nil => exact List.Perm.refl _
  | cons y t ih =>
    rw [insertDesc]
    by_cases h : y < x
    · rw [if_pos h]
    · rw [if_neg h]
      exact (List.Perm.cons y ih).trans (List.Perm.swap x y t)

/-- The descending sort permutes its input. -/
theorem sortDesc_perm : ∀ l : List α, List.Perm (sortDesc l) l := by
  intro l
  induction l with
  | nil => exact List.Perm.refl _
  | cons a t ih =>
    exact (insertDesc_perm a (sortDesc t)).trans (List.Perm.cons a ih)

/-- The rounded keys of the grouped entries. -/
def groupKeys (l : List (BinGroup α)) : List (List ℤ) :=
  l.map (fun g => binKey g.cuts)

/-- Adding a bin whose key is absent appends a fresh entry. -/
theorem addBinGroup_not_mem (b : List α) :
    ∀ acc : List (BinGroup α), binKey b ∉ groupKeys acc →
      addBinGroup b acc = acc ++ [⟨b, 1⟩] := by
  intro acc
  induction acc with
  | nil => intro _; rfl
  | cons g t ih =>
    intro h
    rw [groupKeys, List.map_cons, List.mem_cons] at h
    push_neg at h
    rw [addBinGroup, if_neg (fun he => h.1 he.symm), ih h.2]
    rfl

/-- Adding a bin whose key is present bumps the first entry with that
key. -/
theorem addBinGroup_mem (b : List α) :
    ∀ acc : List (BinGroup α), binKey b ∈ groupKeys acc →
      ∃ pre g post, acc = pre ++ g :: post ∧ binKey b ∉ groupKeys pre ∧
        binKey g.cuts = binKey b ∧
        addBinGroup b acc = pre ++ (⟨g.cuts, g.count + 1⟩ : BinGroup α) :: post := by
  intro acc
  induction acc with
  | nil => intro h; simp [groupKeys] at h
  | cons g t ih =>
    intro h
    by_cases hg : binKey g.cuts = binKey b
    · refine ⟨[], g, t, rfl, by simp [groupKeys], hg, ?_⟩
      rw [addBinGroup, if_pos hg]
      rfl
    · have ht : binKey b ∈ groupKeys t := by
        rw [groupKeys, List.map_cons, List.mem_cons] at h
        rcases h with h | h
        · exact absurd h.symm hg
        · exact h
      obtain ⟨pre, g', post, hdec, hpre, hkey, heq⟩ := ih ht
      refine ⟨g :: pre, g', post, by rw [hdec]; rfl, ?_, hkey, ?_⟩
      · rw [groupKeys, List.map_cons, List.mem_cons]
        push_neg
        exact ⟨fun he => hg he.symm, hpre⟩
      · rw [addBinGroup, if_neg hg, heq]
        rfl

/-- The grouping invariant: entry keys are pairwise distinct, every
entry's count is the number of processed bins with its key and its
pattern is one of the processed bins, and every processed bin's key is
represented. -/
def GroupsOk (acc : List (BinGroup α)) (processed : List (List α)) : Prop :=
  (groupKeys acc).Nodup ∧
  (∀ g ∈ acc,
    g.count = processed.countP (fun b => decide (binKey b = binKey g.cuts)) ∧
    g.cuts ∈ processed) ∧
  ∀ b ∈ processed, binKey b ∈ groupKeys acc

/-- One grouping step preserves the grouping invariant. -/
theorem addBinGroup_ok (b : List α) (acc : List (BinGroup α))
    (processed : List (List α)) (h : GroupsOk acc processed) :
    GroupsOk (addBinGroup b acc) (processed ++ [b]) := by
  obtain ⟨hnd, hcnt, hcov⟩ := h
  by_cases hmem : binKey b ∈ groupKeys acc
  · obtain ⟨pre, g, post, hdec, hpre, hkey, heq⟩ := addBinGroup_mem b acc hmem
    have hkeys : groupKeys (addBinGroup b acc) = groupKeys acc := by
      rw [heq, hdec]
      simp [groupKeys]
    subst hdec
    have hndmid : binKey g.cuts ∉ groupKeys pre ++ groupKeys post := by
      have h1 : groupKeys (pre ++ g :: post)
          = groupKeys pre ++ binKey g.cuts :: groupKeys post := by
        simp [groupKeys]
      rw [h1] at hnd
      have := List.nodup_middle.mp hnd
      exact (List.nodup_cons.mp this).1
    refine ⟨by rw [hkeys]; exact hnd, ?_, ?_⟩
    · intro g' hg'
      rw [heq] at hg'
      have hcount : ∀ g'' ∈ pre ++ g :: post, g'' ∈ pre ∨ g'' ∈ post →
          g''.count = (processed ++ [b]).countP
            (fun b' => decide (binKey b' = binKey g''.cuts)) := by
        intro g'' hg''mem hside
        have hne : binKey g''.cuts ≠ binKey b := by
          intro he
          apply hndmid
          rw [hkey, ← he]
          rcases hside with hs | hs
          · exact List.mem_append_left _ (List.mem_map_of_mem _ hs)
          · exact List.mem_append_right _ (List.mem_map_of_mem _ hs)
        rw [List.countP_append, List.countP_cons, List.countP_nil]
        have : (decide (binKey b = binKey g''.cuts) : Bool) = false := by
          simp
          exact fun he => hne he.symm
        rw [this]
        simpa using (hcnt g'' hg''mem).1
      rcases List.mem_append.mp hg' with hg'pre | hg'rest
      · have := hcount g' (List.mem_append_left _ hg'pre) (Or.inl hg'pre)
        exact ⟨this, List.mem_append_left _ ((hcnt g'
          (List.mem_append_left _ hg'pre)).2)⟩
      rcases List.mem_cons.mp hg'rest with hg'eq | hg'post
      · subst hg'eq
        constructor
        · show g.count + 1 = _
          rw [List.countP_append, List.countP_cons, List.countP_nil]
          have hgmem : g ∈ pre ++ g :: post :=
            List.mem_append_right _ (List.mem_cons_self g post)
          have hb : (decide (binKey b = binKey g.cuts) : Bool) = true := by
            simp [hkey]
          rw [hb]
          simpa using (hcnt g hgmem).1
        · exact List.mem_append_left _ ((hcnt g
            (List.mem_append_right _ (List.mem_cons_self g post))).2)
      · have := hcount g' (List.mem_append_right _
          (List.mem_cons_of_mem g hg'post)) (Or.inr hg'post)
        exact ⟨this, List.mem_append_left _ ((hcnt g'
          (List.mem_append_right _ (List.mem_cons_of_mem g hg'post))).2)⟩
    · intro b' hb'
      rw [hkeys]
      rcases List.mem_append.mp hb' with h | h
      · exact hcov b' h
      · obtain rfl : b' = b := by simpa using h
        exact hmem
  · rw [addBinGroup_not_mem b acc hmem]
    have hkeys : groupKeys (acc ++ [⟨b, 1⟩])
        = groupKeys acc ++ [binKey b] := by
      simp [groupKeys]
    refine ⟨?_, ?_, ?_⟩
    · rw [hkeys]
      simp only [List.nodup_append, List.nodup_cons]
      exact ⟨hnd, by simp, by simpa using fun hk => hmem hk⟩
    · intro g' hg'
      rcases List.mem_append.mp hg' with h | h
      · have hne : binKey g'.cuts ≠ binKey b := by
          intro he
          exact hmem (he ▸ List.mem_map_of_mem _ h)
        constructor
        · rw [List.countP_append, List.countP_cons, List.countP_nil]
          have : (decide (binKey b = binKey g'.cuts) : Bool) = false := by
            simp
            exact fun he => hne he.symm
          rw [this]
          simpa using (hcnt g' h).1
        · exact List.mem_append_left _ (hcnt g' h).2
      · obtain rfl : g' = ⟨b, 1⟩ := by simpa using h
        constructor
        · show 1 = _
          rw [List.countP_append, List.countP_cons, List.countP_nil]
          have h0 : processed.countP
              (fun b' => decide (binKey b' = binKey (⟨b, 1⟩ : BinGroup α).cuts))
              = 0 := by
            rw [List.countP_eq_zero]
            intro b' hb'
            simp only [decide_eq_true_eq]
            intro he
            exact hmem (he ▸ hcov b' hb')
          rw [h0]
          simp
        · exact List.mem_append_right _ (by simp)
    · intro b' hb'
      rw [hkeys]
      rcases List.mem_append.mp hb' with h | h
      · exact List.mem_append_left _ (hcov b' h)
      · obtain rfl : b' = b := by simpa using h
        exact List.mem_append_right _ (by simp)

/-- The grouping fold maintains the grouping invariant. -/
theorem groupFold_ok :
    ∀ (bs : List (List α)) (acc : List (BinGroup α)) (processed : List (List α)),
      GroupsOk acc processed →
      GroupsOk (bs.foldl (fun a b => addBinGroup b a) acc) (processed ++ bs) := by
  intro bs
  induction bs with
  | nil => intro acc processed h; simpa using h
  | cons b t ih =>
    intro acc processed h
    have hstep := addBinGroup_ok b acc processed h
    have := ih (addBinGroup b acc) (processed ++ [b]) hstep
    simpa [List.append_assoc] using this

/-- A grouping step adds exactly one to the total repetition count. -/
theorem addBinGroup_countSum (b : List α) :
    ∀ acc : List (BinGroup α),
      ((addBinGroup b acc).map BinGroup.count).sum
        = ((acc.map BinGroup.count).sum) + 1 := by
  intro acc
  induction acc with
  | nil => rfl
  | cons g t ih =>
    rw [addBinGroup]
    by_cases hg : binKey g.cuts = binKey b
    · rw [if_pos hg]
      simp
      omega
    · rw [if_neg hg]
      simp only [List.map_cons, List.sum_cons, ih]
      omega

/-- The grouped entries' counts sum to the number of packed bins. -/
theorem groupFold_countSum :
    ∀ (bs : List (List α)) (acc : List (BinGroup α)),
      ((bs.foldl (fun a b => addBinGroup b a) acc).map BinGroup.count).sum
        = (acc.map BinGroup.count).sum + bs.length := by
  intro bs
  induction bs with
  | nil => intro acc; simp
  | cons b t ih =>
    intro acc
    rw [List.foldl_cons, ih, addBinGroup_countSum]
    simp
    omega

end CuttingProofs

/-- C7 (amended): for every cut list, stock length and kerf ≥ 0, the plan
is feasible and grouped — every packed bin is nonempty, its cuts plus one
kerf per cut beyond the first fit the stock (equivalently cuts + kerf per
placed cut is at most stock + kerf), its cuts alone never exceed the
stock, every placed cut fits the stock on its own; a cut longer than the
stock is skipped while all other cuts are placed (the rest of the plan is
not aborted); and the summary groups the packed bins by their
descending-sorted pattern rounded to 0.1 cm per cut, with pairwise
distinct keys, each entry counting exactly the packed bins sharing its
rounded key, the counts summing to the number of packed bins. -/
theorem cutting_plan_ok (cuts : List ℚ) (stock kerf : ℚ) (hk : 0 ≤ kerf) :
    (∀ b ∈ packCuts cuts stock kerf,
      b.cuts ≠ [] ∧
      b.cuts.sum + kerf * b.cuts.length ≤ stock + kerf ∧
      b.cuts.sum ≤ stock ∧
      ∀ c ∈ b.cuts, c ≤ stock) ∧
    List.Perm (placedCuts (packCuts cuts stock kerf))
      (cuts.filter (fun c => decide (c ≤ stock))) ∧
    ((optimizeCuttingList cuts stock kerf).bins.map BinGroup.count).sum
      = (packCuts cuts stock kerf).length ∧
    (groupKeys (optimizeCuttingList cuts stock kerf).bins).Nodup ∧
    ∀ g ∈ (optimizeCuttingList cuts stock kerf).bins,
      g.count = ((packCuts cuts stock kerf).map
          (fun b => sortDesc b.cuts)).countP
        (fun b => decide (binKey b = binKey g.cuts)) ∧
      g.cuts ∈ (packCuts cuts stock kerf).map (fun b => sortDesc b.cuts) := by
  have hgood := foldPlace_good stock kerf hk (sortDesc cuts) []
    (by intro b hb; exact absurd hb (List.not_mem_nil b))
  have hgrp := groupFold_ok ((packCuts cuts stock kerf).map
      (fun b => sortDesc b.cuts)) [] []
    ⟨List.nodup_nil, by intro g hg; exact absurd hg (List.not_mem_nil g),
      by intro b hb; exact absurd hb (List.not_mem_nil b)⟩
  rw [List.nil_append] at hgrp
  obtain ⟨hnd, hcnt, _⟩ := hgrp
  refine ⟨?_, ?_, ?_, hnd, hcnt⟩
  · intro b hb
    obtain ⟨hne, _, hbound, hfit⟩ := hgood b hb
    have hlen : (1:ℚ) ≤ (b.cuts.length : ℚ) := by
      have := List.length_pos.mpr hne
      exact_mod_cast this
    refine ⟨hne, hbound, ?_, hfit⟩
    nlinarith
  · have h1 := foldPlace_placed stock kerf (sortDesc cuts) []
    have h2 : placedCuts ([] : List (OpenBin ℚ)) = [] := rfl
    rw [h2, List.append_nil] at h1
    exact h1.trans (List.Perm.filter _ (sortDesc_perm cuts))
  · have h := groupFold_countSum ((packCuts cuts stock kerf).map
      (fun b => sortDesc b.cuts)) []
    simpa using h

/-- Witness for C7 at cuts `[4, 3]`, stock `5`, kerf `1/10`: the placed
cuts are exactly the feasible input cuts. -/
theorem cutting_plan_ok_witness :
    List.Perm (placedCuts (packCuts [(4:ℚ), 3] 5 (1/10)))
      (([4, 3] : List ℚ).filter (fun c => decide (c ≤ (5:ℚ)))) :=
  (cutting_plan_ok [4, 3] 5 (1/10) (by norm_num)).2.1

/-- C7 counterexample: with cuts `[5]`, stock `5`, kerf `1`, the single
packed bin's content with one kerf charged per placed cut is
`5 + 1·1 = 6 > 5`, violating the claimed bound; and with cuts
`[1.0001, 1.0002]`, stock `1.1`, kerf `0`, the two packed bins have
distinct patterns yet are merged into a single entry of count 2, because
grouping is by the 0.1 cm-rounded key, not by identical patterns. -/
theorem cutting_claim_counterexample :
    ((packCuts [(5:ℚ)] 5 1).map (fun b => binLoad 1 b.cuts) = [6] ∧
      ¬ ((6:ℚ) ≤ 5)) ∧
    ((packCuts [(10001/10000 : ℚ), 10002/10000] (11/10) 0).map OpenBin.cuts
        = [[10002/10000], [10001/10000]] ∧
      ([(10002/10000 : ℚ)] ≠ [(10001/10000 : ℚ)]) ∧
      (optimizeCuttingList [(10001/10000 : ℚ), 10002/10000] (11/10) 0).bins
        = [⟨[10002/10000], 2⟩]) := by
  refine ⟨⟨?_, by norm_num⟩, ?_, by norm_num, ?_⟩ <;>
    norm_num [optimizeCuttingList, packCuts, sortDesc, insertDesc, placeCut,
      bestFitScan, fitsBetter, updateAt, addBinGroup, binKey, binLoad,
      placedCuts, round_eq]

/-- C6: for cuts `[3, 2, 2, 1]`, stock `5`, kerf `0`, the optimizer packs
exactly 2 stock bins (patterns `[3,2]` and `[2,1]`, once each), every
bin's total cut length is at most the stock length, and the placed cuts
are a permutation of the input (conservation). -/
theorem cutting_example :
    (optimizeCuttingList [(3:ℚ), 2, 2, 1] 5 0).bins
      = [⟨[3, 2], 1⟩, ⟨[2, 1], 1⟩] ∧
    (((optimizeCuttingList [(3:ℚ), 2, 2, 1] 5 0).bins.map
        BinGroup.count).sum = 2) ∧
    (∀ g ∈ (optimizeCuttingList [(3:ℚ), 2, 2, 1] 5 0).bins,
      g.cuts.sum ≤ 5) ∧
    ((optimizeCuttingList [(3:ℚ), 2, 2, 1] 5 0).bins.map
        (fun g => (List.replicate g.count g.cuts).flatten)).flatten.Perm
      [(3:ℚ), 2, 2, 1] := by
  have hbins : (optimizeCuttingList [(3:ℚ), 2, 2, 1] 5 0).bins
      = [⟨[3, 2], 1⟩, ⟨[2, 1], 1⟩] := by
    norm_num [optimizeCuttingList, packCuts, sortDesc, insertDesc, placeCut,
      bestFitScan, fitsBetter, updateAt, addBinGroup, binKey, round_eq]
  refine ⟨hbins, ?_, ?_, ?_⟩
  · rw [hbins]
    rfl
  · rw [hbins]
    intro g hg
    rcases List.mem_cons.mp hg with h | h
    · subst h
      norm_num
    rcases List.mem_cons.mp h with h | h
    · subst h
      norm_num
    · exact absurd h (List.not_mem_nil g)
  · rw [hbins]
    show List.Perm [(3:ℚ), 2, 2, 1] [(3:ℚ), 2, 2, 1]
    exact List.Perm.refl _

/-! ## `calculateDeflection` (statics)

The statics engine is pure rational arithmetic except for
`cosA = Math.cos(roofPitch·π/180)`, computed once at the top of the
function and used only as a factor; the embedding takes that precomputed
cosine as a parameter field.  String formatting of the description texts
is modelled structurally. -/

/-- Roof types of the planner (`'Satteldach' | 'Pultdach' | 'Flachdach'`). -/
inductive RoofType
  | Satteldach
  | Pultdach
  | Flachdach
deriving DecidableEq

/-- The parameter record destructured at the top of `calculateDeflection`. -/
structure DeflectionParams where
  W : ℚ
  D : ℚ
  roofOverhang : ℚ
  RAFTER_W : ℚ
  RAFTER_H : ℚ
  BEAM_W : ℚ
  BEAM_H : ℚ
  TIE_BEAM_H : ℚ
  POST_DIM : ℚ
  STUD_D : ℚ
  altitude : ℚ
  cosA : ℚ
  numberOfPostsPerSide : Option ℚ
  middlePurlin : Option (ℚ × ℚ)
  roofType : RoofType
deriving DecidableEq

/-- `E_MODULUS = 11e9` (C24 timber). -/
def E_MODULUS : ℚ := 11000000000

/-- `WOOD_DENSITY = 4900 N/m³`. -/
def WOOD_DENSITY : ℚ := 4900

/-- `STUD_THICKNESS = 0.055` (Gartenhaus wall studs). -/
def STUD_THICKNESS : ℚ := 0.055

/-- Ground snow load `(altitude/500 + 0.4) · 0.8 · 1000`. -/
def snowLoadGround (p : DeflectionParams) : ℚ :=
  (p.altitude / 500 + 0.4) * 0.8 * 1000

/-- `Math.max(2, Math.floor(D / 0.8) + 1)`. -/
def numRaftersTotal (p : DeflectionParams) : ℤ :=
  max 2 (⌊p.D / 0.8⌋ + 1)

/-- Rafter axis spacing `(D - RAFTER_W)/(n - 1)` (`D` for a single
rafter). -/
def rafterSpacing (p : DeflectionParams) : ℚ :=
  if 1 < numRaftersTotal p then
    (p.D - p.RAFTER_W) / ((numRaftersTotal p : ℚ) - 1)
  else p.D

/-- Roof load per m²: snow plus rafter self-weight spread over the
spacing. -/
def totalRoofLoadPerM2 (p : DeflectionParams) : ℚ :=
  snowLoadGround p + p.RAFTER_W * p.RAFTER_H * WOOD_DENSITY / rafterSpacing p

/-- `TOP_PLATE_H = BEAM_H > 0.1 ? BEAM_H : 0.12`. -/
def TOP_PLATE_H (p : DeflectionParams) : ℚ :=
  if 0.1 < p.BEAM_H then p.BEAM_H else 0.12

/-- `TOP_PLATE_W = BEAM_W > 0.08 ? BEAM_W : 0.10`. -/
def TOP_PLATE_W (p : DeflectionParams) : ℚ :=
  if 0.08 < p.BEAM_W then p.BEAM_W else 0.10

/-- `isCarport = !!numberOfPostsPerSide`. -/
def isCarport (p : DeflectionParams) : Bool :=
  jsTruthy p.numberOfPostsPerSide

/-- JavaScript `numberOfPostsPerSide > 1` (`undefined > 1` is false). -/
def jsGtOne : Option ℚ → Bool
  | none => false
  | some n => decide (1 < n)

/-- `Math.max(...)` over a list (the source only spreads nonempty
lists). -/
def qMaxList : List ℚ → ℚ
  | [] => 0
  | h :: t => t.foldl max h

/-- Structural model of the interpolated German description strings. -/
inductive FormulaDesc
  | perpGleichlast
  | gleichlast
  | kragarm (cantileverSpan : ℚ)
  | innenfeld (maxInnerSpan : ℚ)
  | zange (withPointLoad : Bool)
  | deckenPunkt (withPointLoad : Bool)
  | placeholder
deriving DecidableEq

/-- The `statics` record attached to a part. -/
structure StaticsInfo where
  passed : Bool
  span : ℚ
  load : ℚ
  maxDeflection : ℚ
  allowedDeflection : ℚ
  inertia : ℚ
  eModulus : ℚ
  pointLoad : Option ℚ
  formula : String
  formulaDescription : FormulaDesc
deriving DecidableEq

/-- The slice of a part the statics engine reads and writes: its key and
its optional statics record (drawings, descriptions and quantities pass
through `calculateDeflection` unchanged and are modelled with the
geometry kernel instead). -/
structure StatPart where
  key : String
  statics : Option StaticsInfo
deriving DecidableEq

def plateFormulaCant : String := "w = (q · L⁴) / (8 · E · I)"

def plateFormulaInner : String := "w = (5 · q · L⁴) / (384 · E · I)"

def rafterFormula : String := "w = (5 · q⟂ · L⁴) / (384 · E · I)"

def tieFormulaP : String := "w_ges = w(q) + w(P)"

def tieFormulaQ : String := "w_ges = w(q) "

/-- Member classification chain of the regular statics branch
(`includes('rafter')`, `=== 'ceiling_joist'`, `includes('tie_beam') ||
includes('cross_member')`, `includes('plate') || includes('purlin') ||
includes('beam')`). -/
inductive MemberClass
  | rafterC
  | joistC
  | tieBeamC
  | purlinC
  | noneC
deriving DecidableEq

/-- Classify a part key by the source's else-if chain. -/
def classifyPart (key : String) : MemberClass :=
  if jsIncludes key "rafter" then .rafterC
  else if key = "ceiling_joist" then .joistC
  else if jsIncludes key "tie_beam" || jsIncludes key "cross_member" then
    .tieBeamC
  else if jsIncludes key "plate" || jsIncludes key "purlin" ||
      jsIncludes key "beam" then .purlinC
  else .noneC

/-- Rafter span: inclined half-span from eaves to ridge (halved again
with a middle purlin); full width for the single-slope roofs. -/
def rafterSpan (p : DeflectionParams) : ℚ :=
  if p.roofType = RoofType.Satteldach then
    if p.middlePurlin.isSome then (p.W / 2 - p.BEAM_W / 2) / 2 / p.cosA
    else (p.W / 2 - p.BEAM_W / 2) / p.cosA
  else
    if p.middlePurlin.isSome then p.W / 2 / p.cosA else p.W / p.cosA

/-- The perpendicular load a rafter carries: self-weight plus roof load
over its spacing, projected twice by the slope cosine. -/
def rafterPerpLoad (p : DeflectionParams) : ℚ :=
  (p.RAFTER_W * p.RAFTER_H * WOOD_DENSITY +
    totalRoofLoadPerM2 p * rafterSpacing p * p.cosA) * p.cosA

/-- Ceiling joist span `W - 2·TOP_PLATE_W`. -/
def joistSpan (p : DeflectionParams) : ℚ :=
  p.W - 2 * TOP_PLATE_W p

/-- Tie-beam span `W - POST_DIM`. -/
def tieBeamSpan (p : DeflectionParams) : ℚ :=
  p.W - p.POST_DIM

/-- Purlin span and carport post spacing: the post distribution length
`D - 2·overhang`, divided between the posts when there is more than
one per side (the source computes this same expression in the purlin and
the tie-beam branches). -/
def purlinSpan (p : DeflectionParams) : ℚ :=
  match p.numberOfPostsPerSide with
  | some n =>
    if 1 < n then (p.D - 2 * p.roofOverhang) / (n - 1)
    else p.D - 2 * p.roofOverhang
  | none => p.D - 2 * p.roofOverhang

/-! ### The special Gartenhaus branch (`top_plate_d` / `ridge_beam`) -/

/-- Cross-section width of the special-branch plates. -/
def plateWidthQ (p : DeflectionParams) (key : String) : ℚ :=
  if key = "top_plate_d" then TOP_PLATE_W p else p.BEAM_W

/-- Cross-section height of the special-branch plates. -/
def plateHeightQ (p : DeflectionParams) (key : String) : ℚ :=
  if key = "top_plate_d" then TOP_PLATE_H p else p.BEAM_H

/-- Governing inner span: the largest stud bay for the wall plate, the
building depth for the ridge beam. -/
def plateMaxInnerSpan (p : DeflectionParams) (key : String) : ℚ :=
  if key = "top_plate_d" then
    qMaxList (calculateStudLayout p.D STUD_THICKNESS 0.625).spacings
  else p.D

/-- Tributary width of the special-branch plates (`rafterSpanHorizontal
= W/2`). -/
def plateTributaryWidth (p : DeflectionParams) (key : String) : ℚ :=
  if key = "top_plate_d" then
    if p.middlePurlin.isSome then p.W / 2 / 4 else p.W / 2 / 2
  else
    if p.middlePurlin.isSome then p.W / 2 / 2 else p.W / 2

/-- Cantilever span: the roof overhang, zeroed below 0.1 m. -/
def plateCantileverSpan (p : DeflectionParams) : ℚ :=
  if p.roofOverhang < 0.1 then 0 else p.roofOverhang

/-- Second moment of area of the special-branch plates. -/
def plateInertia (p : DeflectionParams) (key : String) : ℚ :=
  plateWidthQ p key * plateHeightQ p key ^ 3 / 12

/-- Distributed load on the special-branch plates: roof load over the
tributary width plus self weight. -/
def plateLoad (p : DeflectionParams) (key : String) : ℚ :=
  totalRoofLoadPerM2 p * plateTributaryWidth p key +
    plateWidthQ p key * plateHeightQ p key * WOOD_DENSITY

/-- Inner-span deflection `5·q·L⁴/(384·E·I)`. -/
def plateDeflInner (p : DeflectionParams) (key : String) : ℚ :=
  5 * plateLoad p key * plateMaxInnerSpan p key ^ 4 /
    (384 * E_MODULUS * plateInertia p key)

/-- Cantilever tip deflection `q·L⁴/(8·E·I)`, zero with no overhang. -/
def plateDeflCant (p : DeflectionParams) (key : String) : ℚ :=
  if 0 < plateCantileverSpan p then
    plateLoad p key * plateCantileverSpan p ^ 4 /
      (8 * E_MODULUS * plateInertia p key)
  else 0

/-- Does the cantilever govern?  `cantileverSpan > 0` and its utilization
ratio strictly exceeds the inner one (with no overhang the source's
allowed cantilever deflection is `Infinity` and the ratio 0; the
embedding's `0/0 = 0` conventions agree, and the first conjunct guards
the comparison either way). -/
def plateCritical (p : DeflectionParams) (key : String) : Bool :=
  decide (0 < plateCantileverSpan p) &&
    decide (plateDeflInner p key / (plateMaxInnerSpan p key / 300) <
      plateDeflCant p key / (plateCantileverSpan p / 150))

/-- The statics record of the special Gartenhaus branch. -/
def plateStatics (p : DeflectionParams) (key : String) : StaticsInfo :=
  let passed_inner :=
    decide (plateDeflInner p key ≤ plateMaxInnerSpan p key / 300)
  let passed_cantilever :=
    if 0 < plateCantileverSpan p then
      decide (plateDeflCant p key ≤ plateCantileverSpan p / 150)
    else true
  if plateCritical p key then
    { passed := passed_inner && passed_cantilever,
      span := plateCantileverSpan p,
      load := plateLoad p key,
      maxDeflection := plateDeflCant p key,
      allowedDeflection := plateCantileverSpan p / 150,
      inertia := plateInertia p key,
      eModulus := E_MODULUS,
      pointLoad := none,
      formula := plateFormulaCant,
      formulaDescription := .kragarm (plateCantileverSpan p) }
  else
    { passed := passed_inner && passed_cantilever,
      span := plateMaxInnerSpan p key,
      load := plateLoad p key,
      maxDeflection := plateDeflInner p key,
      allowedDeflection := plateMaxInnerSpan p key / 300,
      inertia := plateInertia p key,
      eModulus := E_MODULUS,
      pointLoad := none,
      formula := plateFormulaInner,
      formulaDescription := .innenfeld (plateMaxInnerSpan p key) }

/-! ### The regular statics branches -/

/-- Purlin tributary width by roof type and key. -/
def purlinTributaryWidth (p : DeflectionParams) (key : String) : ℚ :=
  if p.roofType = RoofType.Satteldach then
    let rsh := p.W / 2 - p.BEAM_W / 2
    if jsIncludes key "side_plate" then
      (if p.middlePurlin.isSome then rsh / 4 else rsh / 2) + p.roofOverhang
    else if jsIncludes key "middle_purlin" then rsh / 2
    else if jsIncludes key "ridge_beam" then
      if p.middlePurlin.isSome then rsh / 4 else rsh / 2
    else 0
  else
    let rsh := p.W - p.BEAM_W
    if jsIncludes key "purlin_high" || jsIncludes key "purlin_low" then
      (if p.middlePurlin.isSome then rsh / 4 else rsh / 2) + p.roofOverhang
    else if jsIncludes key "middle_purlin_pult" then rsh / 2
    else 0

/-- Tie-beam point load from the supported ridge or middle-purlin post. -/
def tieBeamPointLoad (p : DeflectionParams) : ℚ :=
  if p.roofType = RoofType.Satteldach then
    let rts := p.W / 2 - p.BEAM_W / 2
    totalRoofLoadPerM2 p *
      ((if p.middlePurlin.isSome then rts / 2 else rts) * purlinSpan p) +
      p.BEAM_W * p.BEAM_H * WOOD_DENSITY * purlinSpan p
  else
    match p.middlePurlin with
    | some mp =>
      if p.roofType = RoofType.Pultdach ∧ 0 < mp.1 then
        totalRoofLoadPerM2 p * (p.W / 2 * purlinSpan p) +
          mp.1 * mp.2 * WOOD_DENSITY * purlinSpan p
      else 0
    | none => 0

/-- Ceiling-joist point load from the king post under the ridge purlin
(`ridgeTributarySpan = W/2 - TOP_PLATE_W`, spread over the joist
spacing). -/
def joistPointLoad (p : DeflectionParams) : ℚ :=
  if p.roofType = RoofType.Satteldach then
    let rts := p.W / 2 - TOP_PLATE_W p
    totalRoofLoadPerM2 p *
      ((if p.middlePurlin.isSome then rts / 2 else rts) * rafterSpacing p) +
      p.BEAM_W * p.BEAM_H * WOOD_DENSITY * rafterSpacing p
  else 0

/-- `calculateDeflection`'s per-part body: the special Gartenhaus branch
for `top_plate_d` / `ridge_beam`, then the classification chain, each
recognized class attaching a fresh statics record when its span exceeds
0.1 m; anything else passes through unchanged. -/
def deflectPart (p : DeflectionParams) (part : StatPart) : StatPart :=
  if isCarport p = false ∧ (part.key = "top_plate_d" ∨ part.key = "ridge_beam")
  then
    { part with statics := some (plateStatics p part.key) }
  else
    match classifyPart part.key with
    | .rafterC =>
      let span := rafterSpan p
      if 0.1 < span then
        let inertia := p.RAFTER_W * p.RAFTER_H ^ 3 / 12
        let maxDeflection :=
          5 * rafterPerpLoad p * span ^ 4 / (384 * E_MODULUS * inertia)
        { part with statics := some {
            passed := decide (maxDeflection ≤ span / 300),
            span := span,
            load := rafterPerpLoad p,
            maxDeflection := maxDeflection,
            allowedDeflection := span / 300,
            inertia := inertia,
            eModulus := E_MODULUS,
            pointLoad := none,
            formula := rafterFormula,
            formulaDescription := .perpGleichlast } }
      else part
    | .joistC =>
      let span := joistSpan p
      if 0.1 < span then
        let tw := p.RAFTER_W
        let th := TOP_PLATE_H p
        let inertia := tw * th ^ 3 / 12
        let selfWeight := tw * th * WOOD_DENSITY
        let pointLoad := joistPointLoad p
        let dUdl := 5 * selfWeight * span ^ 4 / (384 * E_MODULUS * inertia)
        let dPoint := if 0 < pointLoad then
            pointLoad * span ^ 3 / (48 * E_MODULUS * inertia)
          else 0
        let maxDeflection := dUdl + dPoint
        { part with statics := some {
            passed := decide (maxDeflection ≤ span / 300),
            span := span,
            load := selfWeight,
            maxDeflection := maxDeflection,
            allowedDeflection := span / 300,
            inertia := inertia,
            eModulus := E_MODULUS,
            pointLoad := if 0 < pointLoad then some pointLoad else none,
            formula := if 0 < pointLoad then tieFormulaP else tieFormulaQ,
            formulaDescription := .deckenPunkt (decide (0 < pointLoad)) } }
      else part
    | .tieBeamC =>
      let span := tieBeamSpan p
      if 0.1 < span then
        let tw := p.BEAM_W
        let th := if jsIncludes part.key "cross_member" ∧ p.TIE_BEAM_H ≠ 0
          then p.TIE_BEAM_H else p.BEAM_H
        let inertia := tw * th ^ 3 / 12
        let selfWeight := tw * th * WOOD_DENSITY
        let pointLoad := tieBeamPointLoad p
        let dUdl := 5 * selfWeight * span ^ 4 / (384 * E_MODULUS * inertia)
        let dPoint := if 0 < pointLoad then
            pointLoad * span ^ 3 / (48 * E_MODULUS * inertia)
          else 0
        let maxDeflection := dUdl + dPoint
        { part with statics := some {
            passed := decide (maxDeflection ≤ span / 300),
            span := span,
            load := selfWeight,
            maxDeflection := maxDeflection,
            allowedDeflection := span / 300,
            inertia := inertia,
            eModulus := E_MODULUS,
            pointLoad := if 0 < pointLoad then some pointLoad else none,
            formula := if 0 < pointLoad then tieFormulaP else tieFormulaQ,
            formulaDescription := .zange (decide (0 < pointLoad)) } }
      else part
    | .purlinC =>
      let span := purlinSpan p
      if 0.1 < span then
        let isMiddle := jsIncludes part.key "middle" ∧ p.middlePurlin.isSome
        let tw := if isMiddle then (p.middlePurlin.getD (0, 0)).1 else p.BEAM_W
        let th := if isMiddle then (p.middlePurlin.getD (0, 0)).2 else p.BEAM_H
        let inertia := tw * th ^ 3 / 12
        let tributaryWidth := purlinTributaryWidth p part.key
        let totalLoad := tw * th * WOOD_DENSITY +
          (if 0 < tributaryWidth then totalRoofLoadPerM2 p * tributaryWidth
           else 0)
        let maxDeflection :=
          5 * totalLoad * span ^ 4 / (384 * E_MODULUS * inertia)
        { part with statics := some {
            passed := decide (maxDeflection ≤ span / 300),
            span := span,
            load := totalLoad,
            maxDeflection := maxDeflection,
            allowedDeflection := span / 300,
            inertia := inertia,
            eModulus := E_MODULUS,
            pointLoad := none,
            formula := plateFormulaInner,
            formulaDescription := .gleichlast } }
      else part
    | .noneC => part

/-- `calculateDeflection`: map the per-part body over the part list. -/
def calculateDeflection (parts : List StatPart) (p : DeflectionParams) :
    List StatPart :=
  parts.map (deflectPart p)

/-- C4: every part whose key marks it as a rafter and whose computed span
exceeds the 0.1 m processing threshold gets statics with
`I = w·h³/12`, fixed `E = 11e9`, maximum deflection
`5·q·L⁴/(384·E·I)` for the attached load `q`, allowed deflection
`span/300`, and a `passed` flag set exactly when the deflection is within
the allowance. -/
theorem rafter_statics (p : DeflectionParams) (part : StatPart)
    (hkey : jsIncludes part.key "rafter" = true)
    (hspan : (0.1:ℚ) < rafterSpan p) :
    ∃ s, (deflectPart p part).statics = some s ∧
      s.span = rafterSpan p ∧
      s.load = rafterPerpLoad p ∧
      s.inertia = p.RAFTER_W * p.RAFTER_H ^ 3 / 12 ∧
      s.eModulus = 11000000000 ∧
      s.maxDeflection
        = 5 * s.load * s.span ^ 4 / (384 * s.eModulus * s.inertia) ∧
      s.allowedDeflection = s.span / 300 ∧
      (s.passed = true ↔ s.maxDeflection ≤ s.span / 300) := by
  have hcond : ¬ (isCarport p = false ∧
      (part.key = "top_plate_d" ∨ part.key = "ridge_beam")) := by
    rintro ⟨-, h | h⟩ <;> rw [h] at hkey <;> revert hkey <;> decide
  have hcls : classifyPart part.key = .rafterC := by
    rw [classifyPart, if_pos hkey]
  rw [deflectPart, if_neg hcond]
  simp only [hcls]
  rw [if_pos hspan]
  refine ⟨_, rfl, rfl, rfl, rfl, rfl, rfl, rfl, ?_⟩
  simp

/-- Parameters realizing the claim's example rafter: `cosA = 1`
(precomputed slope cosine), width and depth chosen so that the rafter
span is exactly 4 m and the perpendicular load exactly 500 N/m. -/
def c4params : DeflectionParams :=
  { W := 8.12, D := 0.88, roofOverhang := 0.5, RAFTER_W := 0.08,
    RAFTER_H := 0.16, BEAM_W := 0.12, BEAM_H := 0.12, TIE_BEAM_H := 0.14,
    POST_DIM := 0.12, STUD_D := 0.12, altitude := 92.625, cosA := 1,
    numberOfPostsPerSide := none, middlePurlin := none,
    roofType := RoofType.Satteldach }

/-- Witness for C4: a gable-roof rafter of span 4 m under 500 N/m with an
8×16 cm section and `E = 11e9` deflects by `5·500·4⁴/(384·11e9·I)` and
passes the `L/300` check. -/
theorem rafter_statics_witness :
    ∃ s, (deflectPart c4params ⟨"rafter", none⟩).statics = some s ∧
      s.span = 4 ∧ s.load = 500 ∧
      s.inertia = 0.08 * 0.16 ^ 3 / 12 ∧
      s.maxDeflection
        = 5 * 500 * 4 ^ 4 / (384 * 11000000000 * (0.08 * 0.16 ^ 3 / 12)) ∧
      s.passed = true := by
  have hspan4 : rafterSpan c4params = 4 := by
    norm_num [rafterSpan, c4params]
  have hload500 : rafterPerpLoad c4params = 500 := by
    norm_num [rafterPerpLoad, totalRoofLoadPerM2, snowLoadGround,
      rafterSpacing, numRaftersTotal, WOOD_DENSITY, c4params]
  obtain ⟨s, hs, h1, h2, h3, h4, h5, h6, h7⟩ :=
    rafter_statics c4params ⟨"rafter", none⟩ (by decide)
      (by rw [hspan4]; norm_num)
  refine ⟨s, hs, by rw [h1, hspan4], by rw [h2, hload500], ?_, ?_, ?_⟩
  · rw [h3]
    norm_num [c4params]
  · rw [h5, h2, hload500, h1, hspan4, h3, h4]
    norm_num [c4params, E_MODULUS]
  · rw [h7, h5, h2, hload500, h1, hspan4, h3, h4]
    norm_num [c4params, E_MODULUS]

/-- C5: for the Gartenhaus wall plate (`top_plate_d`) and ridge beam
(`ridge_beam`) the engine evaluates both the inner span (allowed
`L/300`, `w = 5qL⁴/(384EI)`) and, when an overhang is present, the
cantilever tip (allowed `L/150`, `w = qL⁴/(8EI)`), and the reported span,
deflection, allowed deflection and formula/description pair are those of
whichever case has the strictly higher utilization ratio (deflection
divided by allowed deflection). -/
theorem plate_governing (p : DeflectionParams) (part : StatPart)
    (hcar : isCarport p = false)
    (hkey : part.key = "top_plate_d" ∨ part.key = "ridge_beam") :
    (deflectPart p part).statics = some (plateStatics p part.key) ∧
    (if 0 < plateCantileverSpan p ∧
        plateDeflInner p part.key / (plateMaxInnerSpan p part.key / 300) <
          plateDeflCant p part.key / (plateCantileverSpan p / 150) then
      (plateStatics p part.key).span = plateCantileverSpan p ∧
      (plateStatics p part.key).maxDeflection = plateLoad p part.key *
        plateCantileverSpan p ^ 4 /
          (8 * E_MODULUS * plateInertia p part.key) ∧
      (plateStatics p part.key).allowedDeflection
        = plateCantileverSpan p / 150 ∧
      (plateStatics p part.key).formula = plateFormulaCant ∧
      (plateStatics p part.key).formulaDescription
        = .kragarm (plateCantileverSpan p)
    else
      (plateStatics p part.key).span = plateMaxInnerSpan p part.key ∧
      (plateStatics p part.key).maxDeflection = 5 * plateLoad p part.key *
        plateMaxInnerSpan p part.key ^ 4 /
          (384 * E_MODULUS * plateInertia p part.key) ∧
      (plateStatics p part.key).allowedDeflection
        = plateMaxInnerSpan p part.key / 300 ∧
      (plateStatics p part.key).formula = plateFormulaInner ∧
      (plateStatics p part.key).formulaDescription
        = .innenfeld (plateMaxInnerSpan p part.key)) := by
  constructor
  · rw [deflectPart, if_pos ⟨hcar, hkey⟩]
  by_cases hcrit : 0 < plateCantileverSpan p ∧
      plateDeflInner p part.key / (plateMaxInnerSpan p part.key / 300) <
        plateDeflCant p part.key / (plateCantileverSpan p / 150)
  · rw [if_pos hcrit]
    have hb : plateCritical p part.key = true := by
      rw [plateCritical, Bool.and_eq_true, decide_eq_true_eq,
        decide_eq_true_eq]
      exact hcrit
    have hdc : plateDeflCant p part.key = plateLoad p part.key *
        plateCantileverSpan p ^ 4 /
          (8 * E_MODULUS * plateInertia p part.key) := by
      rw [plateDeflCant, if_pos hcrit.1]
    simp [plateStatics, hb, hdc]
  · rw [if_neg hcrit]
    have hb : plateCritical p part.key = false := by
      rw [Bool.eq_false_iff]
      intro hb
      rw [plateCritical, Bool.and_eq_true, decide_eq_true_eq,
        decide_eq_true_eq] at hb
      exact hcrit hb
    simp [plateStatics, hb, plateDeflInner]

/-- Parameters for the C5 witness: a Gartenhaus (no posts per side) gable
roof with a 0.5 m overhang. -/
def c5params : DeflectionParams :=
  { W := 4, D := 3, roofOverhang := 0.5, RAFTER_W := 0.08, RAFTER_H := 0.16,
    BEAM_W := 0.12, BEAM_H := 0.12, TIE_BEAM_H := 0.14, POST_DIM := 0.12,
    STUD_D := 0.12, altitude := 600, cosA := 1,
    numberOfPostsPerSide := none, middlePurlin := none,
    roofType := RoofType.Satteldach }

/-- Witness for C5: the Gartenhaus ridge beam receives exactly the
special-branch statics record. -/
theorem plate_governing_witness :
    (deflectPart c5params ⟨"ridge_beam", none⟩).statics
      = some (plateStatics c5params "ridge_beam") :=
  (plate_governing c5params ⟨"ridge_beam", none⟩ (by decide) (Or.inr rfl)).1

/-! ## The dimension-search loop (`handleGenerate`)

```
const standardWidths = [...]; const standardHeights = [...];
const getNextStandard = (v, standards) =>
  standards.find(s => s > v + 0.001) || v + 0.02;
let optimizedDims = { ...defaults, ...structuralConfig };
let staticsPassed = false; let iterations = 0; const MAX_ITERATIONS = 30;
while (!staticsPassed && iterations < MAX_ITERATIONS) { ... }
if (!staticsPassed) throw new Error("Statik-Optimierung konnte ...");
optimizedDims.postDim = optimizedDims.beamW;
```

One loop iteration regenerates the plan and reruns the statics at the
current dimensions; the loop body only consumes the keys of the parts
that failed.  The embedding abstracts that regeneration as a function
`check : OptimizedDims → List String` returning those failing keys, so
every theorem below holds for the actual generator-plus-statics
composition in particular. -/

/-- The optimizer's `standardWidths`. -/
def standardWidths : List ℚ :=
  [0.06, 0.08, 0.10, 0.12, 0.14, 0.16, 0.18, 0.20, 0.22, 0.24]

/-- The optimizer's `standardHeights`. -/
def standardHeights : List ℚ :=
  [0.10, 0.12, 0.14, 0.16, 0.18, 0.20, 0.22, 0.24, 0.26, 0.28, 0.30, 0.32,
   0.34, 0.36, 0.38, 0.40, 0.44, 0.48, 0.50]

/-- `getNextStandard`: the first standard strictly above the current value
plus 1 mm, falling back to +2 cm beyond the table (the `||` fallback can
only trigger when no standard is found, standards being nonzero). -/
def getNextStandard (currentValue : ℚ) (standards : List ℚ) : ℚ :=
  (standards.find? (fun s => decide (currentValue + 0.001 < s))).getD
    (currentValue + 0.02)

/-- The mutable `optimizedDims` record of `handleGenerate`. -/
structure OptimizedDims where
  postDim : ℚ
  beamW : ℚ
  beamH : ℚ
  tieBeamH : ℚ
  rafterW : ℚ
  rafterH : ℚ
  braceDim : ℚ
  counterBattenW : ℚ
  counterBattenH : ℚ
  middlePurlinW : ℚ
  middlePurlinH : ℚ
  studD : ℚ
  useKingPosts : Bool
  useMiddlePurlin : Bool
  numberOfPostsPerSide : Option ℚ
deriving DecidableEq

/-- The advisory service's structural configuration (the union of the two
response-schema versions; fields whose names match a default override it
in the object spread — note the schema's `studDepth` does not collide
with the default field `studD`). -/
structure StructuralConfig where
  studDepth : Option ℚ
  useMiddlePurlin : Bool
  useKingPosts : Option Bool
  counterBattenW : ℚ
  counterBattenH : ℚ
  numberOfPostsPerSide : Option ℚ
deriving DecidableEq

/-- `optimizedDims` after the defaults and the `...structuralConfig`
spread. -/
def initialDims (cfg : StructuralConfig) : OptimizedDims :=
  { postDim := 0.12, beamW := 0.12, beamH := 0.12, tieBeamH := 0.14,
    rafterW := 0.08, rafterH := 0.16, braceDim := 0.10,
    counterBattenW := cfg.counterBattenW,
    counterBattenH := cfg.counterBattenH,
    middlePurlinW := 0.12, middlePurlinH := 0.16, studD := 0.12,
    useKingPosts := cfg.useKingPosts.getD true,
    useMiddlePurlin := cfg.useMiddlePurlin,
    numberOfPostsPerSide := cfg.numberOfPostsPerSide }

/-- The failure category of a rafter bump (`p.key.includes('rafter')`). -/
def rafterFailKey (k : String) : Bool := jsIncludes k "rafter"

/-- The failure category of a beam-height bump. -/
def beamFailKey (k : String) : Bool :=
  jsIncludes k "plate" || jsIncludes k "purlin" || jsIncludes k "beam" ||
  jsIncludes k "tie_beam" || jsIncludes k "top_plate" ||
  jsIncludes k "ceiling_joist"

/-- The failure category of a tie-beam-height bump. -/
def crossFailKey (k : String) : Bool := jsIncludes k "cross_member"

/-- The failure category of a middle-purlin-height bump. -/
def mpFailKey (k : String) : Bool := jsIncludes k "middle_purlin"

/-- One failing-iteration adjustment (the loop's `else` block): bump the
implicated standard heights by failure category, then widen the beam if
it has become too slender. -/
def adjustDims (failedKeys : List String) (d : OptimizedDims) :
    OptimizedDims :=
  let d1 := if failedKeys.any rafterFailKey then
      { d with rafterH := getNextStandard d.rafterH standardHeights }
    else d
  let d2 := if failedKeys.any beamFailKey then
      { d1 with beamH := getNextStandard d1.beamH standardHeights }
    else d1
  let d3 := if failedKeys.any crossFailKey then
      { d2 with tieBeamH := getNextStandard d2.tieBeamH standardHeights }
    else d2
  let d4 := if failedKeys.any mpFailKey then
      { d3 with middlePurlinH := getNextStandard d3.middlePurlinH standardHeights }
    else d3
  if d4.beamW * 2.5 < d4.beamH ∧ d4.beamW < 0.24 then
    { d4 with beamW := getNextStandard d4.beamW standardWidths }
  else d4

/-- `MAX_ITERATIONS = 30`. -/
def MAX_ITERATIONS : ℕ := 30

/-- The search loop, recursing on the remaining iteration budget (the
`while` condition `iterations < MAX_ITERATIONS`); returns the final
dimensions, whether statics passed, and the number of iterations used. -/
def searchGo (check : OptimizedDims → List String) :
    ℕ → OptimizedDims → OptimizedDims × Bool × ℕ
  | 0, d => (d, false, 0)
  | n + 1, d =>
    let failed := check d
    if failed.isEmpty then (d, true, 1)
    else
      let r := searchGo check n (adjustDims failed d)
      (r.1, r.2.1, r.2.2 + 1)

/-- The fixed message of the error thrown on exhaustion. -/
def exhaustedMessage : String :=
  "Statik-Optimierung konnte nach mehreren Versuchen keine stabile Dimension finden. Bitte überprüfen Sie die Eingabewerte (z.B. sehr grosse Spannweiten)."

/-- The optimization phase of `handleGenerate`: run the bounded search; on
success force the post dimension to the beam width, otherwise throw the
fixed error. -/
def runOptimization (check : OptimizedDims → List String)
    (d0 : OptimizedDims) : Except String OptimizedDims :=
  let r := searchGo check MAX_ITERATIONS d0
  if r.2.1 then Except.ok { r.1 with postDim := r.1.beamW }
  else Except.error exhaustedMessage

/-- The loop never uses more iterations than its budget. -/
theorem searchGo_iters_le (check : OptimizedDims → List String) :
    ∀ (n : ℕ) (d : OptimizedDims), (searchGo check n d).2.2 ≤ n := by
  intro n
  induction n with
  | zero => intro d; exact le_refl 0
  | succ n ih =>
    intro d
    rw [searchGo]
    by_cases hf : (check d).isEmpty
    · rw [if_pos hf]
      show (1:ℕ) ≤ n + 1
      omega
    · rw [if_neg hf]
      show (searchGo check n (adjustDims (check d) d)).2.2 + 1 ≤ n + 1
      have := ih (adjustDims (check d) d)
      omega

/-- With a check that always fails, the loop never converges and burns the
whole budget. -/
theorem searchGo_never (check : OptimizedDims → List String)
    (h : ∀ d, check d ≠ []) :
    ∀ (n : ℕ) (d : OptimizedDims),
      (searchGo check n d).2.1 = false ∧ (searchGo check n d).2.2 = n := by
  intro n
  induction n with
  | zero => intro d; exact ⟨rfl, rfl⟩
  | succ n ih =>
    intro d
    have hf : (check d).isEmpty = false := by
      rw [List.isEmpty_eq_false]
      exact h d
    rw [searchGo]
    rw [if_neg (by rw [hf]; exact Bool.false_ne_true)]
    have hih := ih (adjustDims (check d) d)
    constructor
    · exact hih.1
    · show (searchGo check n (adjustDims (check d) d)).2.2 + 1 = n + 1
      rw [hih.2]

/-- C1 (amended): the dimension search performs at most 30 iterations for
every check and start; when the statics check keeps failing at every
attempted dimension set, the loop stops after exactly 30 iterations and
surfaces the terminal failure to the caller as the fixed error message
(no plan is returned); the error carries only that fixed message, not
the last-attempted cross-sections. -/
theorem search_bounded (check : OptimizedDims → List String)
    (d0 : OptimizedDims) (h : ∀ d, check d ≠ []) :
    (∀ (chk : OptimizedDims → List String) (d : OptimizedDims),
      (searchGo chk MAX_ITERATIONS d).2.2 ≤ MAX_ITERATIONS) ∧
    (searchGo check MAX_ITERATIONS d0).2.2 = MAX_ITERATIONS ∧
    runOptimization check d0 = Except.error exhaustedMessage := by
  refine ⟨fun chk d => searchGo_iters_le chk MAX_ITERATIONS d,
    (searchGo_never check h MAX_ITERATIONS d0).2, ?_⟩
  rw [runOptimization]
  rw [(searchGo_never check h MAX_ITERATIONS d0).1]
  rfl

/-- A Gartenhaus advisory configuration for the concrete runs. -/
def cfg1 : StructuralConfig :=
  { studDepth := some 0.12, useMiddlePurlin := true,
    useKingPosts := some true, counterBattenW := 0.06,
    counterBattenH := 0.08, numberOfPostsPerSide := none }

/-- Witness for C1: a check that always fails only the rafter part burns
the whole budget and the optimization surfaces the fixed error. -/
theorem search_bounded_witness :
    (searchGo (fun _ => ["rafter"]) MAX_ITERATIONS (initialDims cfg1)).2.2
      = MAX_ITERATIONS ∧
    runOptimization (fun _ => ["rafter"]) (initialDims cfg1)
      = Except.error exhaustedMessage :=
  (search_bounded (fun _ => ["rafter"]) (initialDims cfg1)
    (fun _ => by simp)).2

/-- The value `getNextStandard` returns always exceeds its input. -/
theorem getNextStandard_gt (v : ℚ) (standards : List ℚ) :
    v < getNextStandard v standards := by
  rw [getNextStandard]
  rcases hf : standards.find? (fun s => decide (v + 0.001 < s)) with _ | s
  · simp only [Option.getD]
    norm_num
  · have := List.find?_some hf
    simp only [decide_eq_true_eq] at this
    simp only [Option.getD]
    linarith

/-- The rafter-height field of an adjustment step. -/
theorem adjustDims_rafterH (ks : List String) (d : OptimizedDims) :
    (adjustDims ks d).rafterH
      = if ks.any rafterFailKey then
          getNextStandard d.rafterH standardHeights
        else d.rafterH := by
  by_cases h1 : ks.any rafterFailKey = true <;>
    simp only [adjustDims, h1, if_true, if_false] <;>
    split_ifs <;> rfl

/-- A check that only ever fails `middle_purlin` never moves the rafter
height. -/
theorem searchGo_mp_rafterH :
    ∀ (n : ℕ) (d : OptimizedDims),
      (searchGo (fun _ => ["middle_purlin"]) n d).1.rafterH = d.rafterH := by
  intro n
  induction n with
  | zero => intro d; rfl
  | succ n ih =>
    intro d
    rw [searchGo]
    rw [if_neg (by simp)]
    show (searchGo _ n (adjustDims ["middle_purlin"] d)).1.rafterH = _
    rw [ih, adjustDims_rafterH]
    rw [if_neg (by decide)]

/-- A check that always fails the rafter part never shrinks the rafter
height. -/
theorem searchGo_rafter_rafterH_le :
    ∀ (n : ℕ) (d : OptimizedDims),
      d.rafterH ≤ (searchGo (fun _ => ["rafter"]) n d).1.rafterH := by
  intro n
  induction n with
  | zero => intro d; exact le_refl _
  | succ n ih =>
    intro d
    rw [searchGo]
    rw [if_neg (by simp)]
    show d.rafterH ≤ (searchGo _ n (adjustDims ["rafter"] d)).1.rafterH
    refine le_trans ?_ (ih (adjustDims ["rafter"] d))
    rw [adjustDims_rafterH, if_pos (by decide)]
    exact le_of_lt (getNextStandard_gt _ _)

/-- With at least one iteration of budget, a check that always fails the
rafter part pushes the rafter height at least one standard step up. -/
theorem searchGo_rafter_rafterH_grow :
    ∀ (n : ℕ) (d : OptimizedDims), n ≠ 0 →
      getNextStandard d.rafterH standardHeights
        ≤ (searchGo (fun _ => ["rafter"]) n d).1.rafterH := by
  intro n
  cases n with
  | zero => intro d h; exact absurd rfl h
  | succ n =>
    intro d _
    rw [searchGo]
    rw [if_neg (by simp)]
    show getNextStandard d.rafterH standardHeights
      ≤ (searchGo _ n (adjustDims ["rafter"] d)).1.rafterH
    have hr : (adjustDims ["rafter"] d).rafterH
        = getNextStandard d.rafterH standardHeights := by
      rw [adjustDims_rafterH, if_pos (by decide)]
    rw [← hr]
    exact searchGo_rafter_rafterH_le n _

/-- C1 counterexample: two never-converging runs whose last-attempted
cross-sections differ (one keeps bumping the rafter height, the other the
middle purlin and beam heights) surface the identical fixed error, so the
error does not carry the last-attempted cross-sections. -/
theorem search_error_counterexample :
    runOptimization (fun _ => ["rafter"]) (initialDims cfg1)
      = Except.error exhaustedMessage ∧
    runOptimization (fun _ => ["middle_purlin"]) (initialDims cfg1)
      = Except.error exhaustedMessage ∧
    (searchGo (fun _ => ["rafter"]) MAX_ITERATIONS (initialDims cfg1)).1
      ≠ (searchGo (fun _ => ["middle_purlin"]) MAX_ITERATIONS
          (initialDims cfg1)).1 := by
  have h1 : ∀ d : OptimizedDims, (fun _ : OptimizedDims => ["rafter"]) d ≠ []
    := fun _ => by simp
  have h2 : ∀ d : OptimizedDims,
      (fun _ : OptimizedDims => ["middle_purlin"]) d ≠ [] := fun _ => by simp
  refine ⟨?_, ?_, ?_⟩
  · rw [runOptimization,
      (searchGo_never (fun _ => ["rafter"]) h1 MAX_ITERATIONS _).1]
    rfl
  · rw [runOptimization,
      (searchGo_never (fun _ => ["middle_purlin"]) h2 MAX_ITERATIONS _).1]
    rfl
  · intro he
    have hB := searchGo_mp_rafterH MAX_ITERATIONS (initialDims cfg1)
    have hstep : (initialDims cfg1).rafterH
        < (searchGo (fun _ => ["rafter"]) MAX_ITERATIONS
            (initialDims cfg1)).1.rafterH :=
      lt_of_lt_of_le (getNextStandard_gt _ _)
        (searchGo_rafter_rafterH_grow MAX_ITERATIONS (initialDims cfg1)
          (by decide))
    rw [he, hB] at hstep
    exact lt_irrefl _ hstep

/-! ### Reachability invariant for the beam slenderness check (C2) -/

/-- Heights reachable by repeated `getNextStandard` bumps: a table entry,
or `0.5 + 0.02·(k+1)` beyond the table's end. -/
def HeightReach (h : ℚ) : Prop :=
  h ∈ standardHeights ∨ ∃ k : ℕ, h = 0.5 + 0.02 * ((k : ℚ) + 1)

/-- Bumping a reachable height moves strictly up by at most 0.04 and
stays reachable. -/
theorem nextH_step (h : ℚ) (hr : HeightReach h) :
    h < getNextStandard h standardHeights ∧
    getNextStandard h standardHeights ≤ h + 0.04 ∧
    HeightReach (getNextStandard h standardHeights) := by
  rcases hr with hmem | ⟨k, rfl⟩
  · refine ⟨getNextStandard_gt _ _, ?_, ?_⟩
    · fin_cases hmem <;>
        norm_num [getNextStandard, standardHeights, List.find?]
    · fin_cases hmem <;> unfold HeightReach <;>
        first
          | (left
             norm_num [getNextStandard, standardHeights, List.find?]
             done)
          | (right
             refine ⟨0, ?_⟩
             norm_num [getNextStandard, standardHeights, List.find?]
             done)
  · have hk : (0:ℚ) ≤ 0.02 * (k : ℚ) := by positivity
    have hnone : standardHeights.find?
        (fun s => decide (0.5 + 0.02 * ((k : ℚ) + 1) + 0.001 < s)) = none := by
      rw [List.find?_eq_none]
      intro s hs
      simp only [decide_eq_true_eq]
      fin_cases hs <;> push_neg <;> nlinarith
    have heq : getNextStandard (0.5 + 0.02 * ((k : ℚ) + 1)) standardHeights
        = 0.5 + 0.02 * ((k : ℚ) + 1) + 0.02 := by
      rw [getNextStandard, hnone]
      rfl
    refine ⟨by rw [heq]; norm_num, by rw [heq]; norm_num, ?_⟩
    right
    refine ⟨k + 1, ?_⟩
    rw [heq]
    push_cast
    ring

/-- Bumping a standard width below the 0.24 cap steps exactly 0.02 up and
stays in the table. -/
theorem nextW_step (w : ℚ) (hw : w ∈ standardWidths) (hlt : w < 0.24) :
    getNextStandard w standardWidths = w + 0.02 ∧
    (w + 0.02) ∈ standardWidths := by
  revert hlt
  fin_cases hw <;>
    norm_num [getNextStandard, standardWidths, List.find?]

/-- The beam-height value after the beam-category bump of one adjustment
step. -/
def beamBumpH (ks : List String) (d : OptimizedDims) : ℚ :=
  if ks.any beamFailKey then getNextStandard d.beamH standardHeights
  else d.beamH

/-- The beam fields of an adjustment step: the height is bumped exactly on
a beam-category failure, and the width exactly when the bumped height
exceeds 2.5 widths with the width below the 0.24 cap. -/
theorem adjustDims_beamFields (ks : List String) (d : OptimizedDims) :
    (adjustDims ks d).beamH = beamBumpH ks d ∧
    (adjustDims ks d).beamW =
      (if d.beamW * 2.5 < beamBumpH ks d ∧ d.beamW < 0.24 then
        getNextStandard d.beamW standardWidths
      else d.beamW) := by
  by_cases h2 : ks.any beamFailKey = true <;>
    simp only [adjustDims, beamBumpH, h2, if_true, if_false] <;>
    split_ifs <;> simp_all

/-- The search-reachable beam invariant: the width is a table width and
the height is at most 2.5 widths unless the width has hit the 0.24 cap. -/
def GoodDims (d : OptimizedDims) : Prop :=
  d.beamW ∈ standardWidths ∧ HeightReach d.beamH ∧
  (d.beamH ≤ 2.5 * d.beamW ∨ (0.24:ℚ) ≤ d.beamW)

/-- One adjustment step preserves the beam invariant: whenever the height
bump makes the beam too slender, the same iteration widens it back within
bounds. -/
theorem adjust_good (ks : List String) (d : OptimizedDims)
    (hg : GoodDims d) : GoodDims (adjustDims ks d) := by
  obtain ⟨hw, hh, hratio⟩ := hg
  obtain ⟨hbh, hbw⟩ := adjustDims_beamFields ks d
  by_cases h2 : ks.any beamFailKey = true
  · have hb : beamBumpH ks d = getNextStandard d.beamH standardHeights := by
      rw [beamBumpH, if_pos h2]
    obtain ⟨hlt, hle, hreach⟩ := nextH_step d.beamH hh
    by_cases hcond : d.beamW * 2.5 < beamBumpH ks d ∧ d.beamW < 0.24
    · rw [if_pos hcond] at hbw
      obtain ⟨heq, hmem'⟩ := nextW_step d.beamW hw hcond.2
      refine ⟨by rw [hbw, heq]; exact hmem', by rw [hbh, hb]; exact hreach,
        Or.inl ?_⟩
      rw [hbh, hb, hbw, heq]
      have hratio' : d.beamH ≤ 2.5 * d.beamW := by
        rcases hratio with h | h
        · exact h
        · exact absurd hcond.2 (not_lt.mpr h)
      linarith
    · rw [if_neg hcond] at hbw
      refine ⟨by rw [hbw]; exact hw, by rw [hbh, hb]; exact hreach, ?_⟩
      rw [hb] at hcond
      rcases not_and_or.mp hcond with h | h
      · left
        rw [hbh, hb, hbw]
        linarith [not_lt.mp h]
      · right
        rw [hbw]
        exact not_lt.mp h
  · have hb : beamBumpH ks d = d.beamH := by
      rw [beamBumpH, if_neg h2]
    by_cases hcond : d.beamW * 2.5 < beamBumpH ks d ∧ d.beamW < 0.24
    · rw [hb] at hcond
      rcases hratio with h | h
      · exact absurd hcond.1 (not_lt.mpr (by linarith))
      · exact absurd hcond.2 (not_lt.mpr h)
    · rw [if_neg hcond] at hbw
      exact ⟨by rw [hbw]; exact hw, by rw [hbh, hb]; exact hh,
        by rw [hbh, hb, hbw]; exact hratio⟩

/-- The fold of adjustment steps preserves the beam invariant. -/
theorem foldAdjust_good :
    ∀ (steps : List (List String)) (d : OptimizedDims), GoodDims d →
      GoodDims (steps.foldl (fun a ks => adjustDims ks a) d) := by
  intro steps
  induction steps with
  | nil => intro d h; exact h
  | cons ks t ih =>
    intro d h
    exact ih (adjustDims ks d) (adjust_good ks d h)

/-- The initial dimensions satisfy the beam invariant (beam 0.12 × 0.12
regardless of the advisory configuration). -/
theorem initialDims_good (cfg : StructuralConfig) :
    GoodDims (initialDims cfg) := by
  refine ⟨?_, Or.inl ?_, Or.inl ?_⟩ <;>
    norm_num [initialDims, standardWidths, standardHeights]

/-- C2: at any dimension state the search loop can reach from the initial
dimensions, an iteration whose failing statics checks are exactly on
rafter parts — the parts either generator emits under the keys `rafter`
(Gartenhaus and carport Satteldach) or `rafter_sloped` (carport Pultdach)
— advances only the rafter height, to the next value of the
standard-height table, and leaves every other cross-section dimension
(beam width and height, tie-beam height, middle-purlin dimensions, brace,
batten, stud, post) unchanged. -/
theorem rafter_only_bump (cfg : StructuralConfig)
    (steps : List (List String)) (d : OptimizedDims)
    (hreach : d = steps.foldl (fun a ks => adjustDims ks a) (initialDims cfg))
    (S : List String) (hne : S ≠ [])
    (hS : ∀ k ∈ S, k = "rafter" ∨ k = "rafter_sloped") :
    adjustDims S d
      = { d with rafterH := getNextStandard d.rafterH standardHeights } := by
  have hgood : GoodDims d := by
    rw [hreach]
    exact foldAdjust_good steps (initialDims cfg) (initialDims_good cfg)
  have hA : S.any rafterFailKey = true := by
    obtain ⟨k, hk⟩ := List.exists_mem_of_ne_nil S hne
    rw [List.any_eq_true]
    refine ⟨k, hk, ?_⟩
    rcases hS k hk with rfl | rfl <;> decide
  have hB : S.any beamFailKey = false := by
    rw [List.any_eq_false]
    intro k hk
    rcases hS k hk with rfl | rfl <;> decide
  have hC : S.any crossFailKey = false := by
    rw [List.any_eq_false]
    intro k hk
    rcases hS k hk with rfl | rfl <;> decide
  have hD : S.any mpFailKey = false := by
    rw [List.any_eq_false]
    intro k hk
    rcases hS k hk with rfl | rfl <;> decide
  have hW : ¬ (d.beamW * 2.5 < d.beamH ∧ d.beamW < 0.24) := by
    rcases hgood.2.2 with h | h
    · rintro ⟨h1, -⟩
      linarith
    · rintro ⟨-, h2⟩
      exact absurd h2 (not_lt.mpr h)
  simp only [adjustDims, hA, hB, hC, hD, if_true, if_false, Bool.false_eq_true]
  rw [if_neg hW]

/-- The advisory configuration of the C2 witness run. -/
def cfg2 : StructuralConfig :=
  { studDepth := some 0.12, useMiddlePurlin := false,
    useKingPosts := some false, counterBattenW := 0.06,
    counterBattenH := 0.08, numberOfPostsPerSide := none }

/-- Witness for C2 at the initial dimensions with the carport Pultdach
rafter (`rafter_sloped`) as the single failing part. -/
theorem rafter_only_bump_witness :
    adjustDims ["rafter_sloped"] (initialDims cfg2)
      = { initialDims cfg2 with
          rafterH := getNextStandard (initialDims cfg2).rafterH
            standardHeights } :=
  rafter_only_bump cfg2 [] (initialDims cfg2) rfl ["rafter_sloped"] (by simp)
    (by intro k hk; right; simpa using hk)

/-! ## The Gartenhaus brace solver (`createGartenhausBraceInfo`)

The solver works in floating point with `Math.asin`, `Math.cos`, `Math.tan`
and `Math.hypot`; we embed it over `ℝ` with the exact functions. Only the
fields relevant to the claims are kept: the drawing polygon's corner points,
the outer (tip-to-tip) length, and the returned angle (the fitting angle
from horizontal). Each degenerate early return carries the empty drawing and
zeroes. -/

/-- The result of `createGartenhausBraceInfo`: drawing corner points, the
tip-to-tip outer length, and `angleRad` (the fitting angle from
horizontal). -/
structure BraceInfo where
  points : List (ℝ × ℝ)
  outerLength : ℝ
  angleRad : ℝ

/-- `createGartenhausBraceInfo` over `ℝ`: guards for a degenerate bay, a
negative radicand or tiny `C`, and a near-zero cut cosine; otherwise the
clamped-arcsine fitting angle and the parallelogram with its tip-to-tip
diagonal. -/
noncomputable def createGartenhausBraceInfo (horizontalRun verticalRun braceWidthForDrawing STUD_THICKNESS : ℝ) : BraceInfo :=
  if verticalRun < 0.01 ∨ horizontalRun < 0.01 then ⟨[], 0, 0⟩
  else
    let C := verticalRun * verticalRun + horizontalRun * horizontalRun
    let E := verticalRun * verticalRun - STUD_THICKNESS * STUD_THICKNESS
    let term_under_sqrt := horizontalRun * horizontalRun * STUD_THICKNESS * STUD_THICKNESS + C * E
    if term_under_sqrt < 0 ∨ C < 1e-9 then ⟨[], 0, 0⟩
    else
      let asin_arg := max (-1) (min 1 ((horizontalRun * STUD_THICKNESS + Real.sqrt term_under_sqrt) / C))
      let angleFromHorizontal_rad := Real.arcsin asin_arg
      let cutAngleFromVertical_rad := Real.pi / 2 - angleFromHorizontal_rad
      if |Real.cos cutAngleFromVertical_rad| < 1e-9 then ⟨[], 0, 0⟩
      else
        let cos_angle_vert := Real.cos cutAngleFromVertical_rad
        let tan_angle_vert := Real.tan cutAngleFromVertical_rad
        let p2x := verticalRun / cos_angle_vert
        let p3x := p2x + braceWidthForDrawing * tan_angle_vert
        ⟨[(0, 0), (p2x, 0), (p3x, braceWidthForDrawing), (braceWidthForDrawing * tan_angle_vert, braceWidthForDrawing)],
         Real.sqrt (p3x * p3x + braceWidthForDrawing * braceWidthForDrawing),
         angleFromHorizontal_rad⟩

/-- C9: the brace solver is total and safe. Each degenerate guard — bay
height or width below 1 cm; negative radicand or `C` below `1e-9`; cut
cosine below `1e-9` in absolute value — returns the zero-length, zero-angle
placeholder with an empty drawing; and on every input whatsoever the
returned outer length is nonnegative and the returned angle lies in
`[-π/2, π/2]` (it is an arcsine of a clamped argument), so bracing never
aborts plan generation or propagates an undefined value. -/
theorem brace_degenerate_safe (horizontalRun verticalRun bw st : ℝ) :
    ((verticalRun < 0.01 ∨ horizontalRun < 0.01) →
      createGartenhausBraceInfo horizontalRun verticalRun bw st = ⟨[], 0, 0⟩) ∧
    ((horizontalRun * horizontalRun * st * st +
        (verticalRun * verticalRun + horizontalRun * horizontalRun) *
          (verticalRun * verticalRun - st * st) < 0 ∨
      verticalRun * verticalRun + horizontalRun * horizontalRun < 1e-9) →
      createGartenhausBraceInfo horizontalRun verticalRun bw st = ⟨[], 0, 0⟩) ∧
    (|Real.cos (Real.pi / 2 - Real.arcsin (max (-1) (min 1
        ((horizontalRun * st + Real.sqrt (horizontalRun * horizontalRun * st * st +
          (verticalRun * verticalRun + horizontalRun * horizontalRun) *
            (verticalRun * verticalRun - st * st))) /
          (verticalRun * verticalRun + horizontalRun * horizontalRun)))))| < 1e-9 →
      createGartenhausBraceInfo horizontalRun verticalRun bw st = ⟨[], 0, 0⟩) ∧
    0 ≤ (createGartenhausBraceInfo horizontalRun verticalRun bw st).outerLength ∧
    |(createGartenhausBraceInfo horizontalRun verticalRun bw st).angleRad|
      ≤ Real.pi / 2 := by
  refine ⟨?_, ?_, ?_, ?_, ?_⟩
  · intro h
    simp only [createGartenhausBraceInfo]
    rw [if_pos h]
  · intro h
    by_cases h1 : verticalRun < 0.01 ∨ horizontalRun < 0.01
    · simp only [createGartenhausBraceInfo]
      rw [if_pos h1]
    · simp only [createGartenhausBraceInfo]
      rw [if_neg h1, if_pos h]
  · intro h
    by_cases h1 : verticalRun < 0.01 ∨ horizontalRun < 0.01
    · simp only [createGartenhausBraceInfo]
      rw [if_pos h1]
    · by_cases h2 : horizontalRun * horizontalRun * st * st +
          (verticalRun * verticalRun + horizontalRun * horizontalRun) *
            (verticalRun * verticalRun - st * st) < 0 ∨
          verticalRun * verticalRun + horizontalRun * horizontalRun < 1e-9
      · simp only [createGartenhausBraceInfo]
        rw [if_neg h1, if_pos h2]
      · simp only [createGartenhausBraceInfo]
        rw [if_neg h1, if_neg h2, if_pos h]
  · simp only [createGartenhausBraceInfo]
    split_ifs <;> first | exact le_refl 0 | exact Real.sqrt_nonneg _
  · simp only [createGartenhausBraceInfo]
    split_ifs <;>
      first
        | (show |(0:ℝ)| ≤ Real.pi / 2
           rw [abs_zero]
           positivity)
        | exact abs_le.mpr
            ⟨Real.neg_pi_div_two_le_arcsin _, Real.arcsin_le_pi_div_two _⟩

/-- Witness for C9: the degenerate-bay guard at a 5 mm bay height. -/
theorem brace_degenerate_safe_witness :
    ((0.005:ℝ) < 0.01 ∨ (1:ℝ) < 0.01) ∧
    createGartenhausBraceInfo 1 0.005 0.1 0.1 = ⟨[], 0, 0⟩ :=
  ⟨Or.inl (by norm_num),
   (brace_degenerate_safe 1 0.005 0.1 0.1).1 (Or.inl (by norm_num))⟩

/-- `√3` bounded below through its square. -/
theorem sqrt3_lo : (1.732 : ℝ) < Real.sqrt 3 := by
  rw [show (1.732:ℝ) = Real.sqrt (1.732 ^ 2) from
    (Real.sqrt_sq (by norm_num)).symm]
  exact Real.sqrt_lt_sqrt (by positivity) (by norm_num)

/-- `√3` bounded above through its square. -/
theorem sqrt3_hi : Real.sqrt 3 < 1.7321 := by
  rw [show (1.7321:ℝ) = Real.sqrt (1.7321 ^ 2) from
    (Real.sqrt_sq (by norm_num)).symm]
  exact Real.sqrt_lt_sqrt (by norm_num) (by norm_num)

/-- The exact arcsine argument of the brace run at `H = 2.4`, `B = 1`,
`D = 0.1`: `(B·D + √(B²D² + C·E))/C = (5 + 180·√3)/338 ≈ 0.9372`. -/
noncomputable def braceA : ℝ := (5 + 180 * Real.sqrt 3) / 338

/-- `braceA` bounded below. -/
theorem braceA_lo : (0.937 : ℝ) < braceA := by
  have := sqrt3_lo
  unfold braceA
  linarith

/-- `braceA` bounded above. -/
theorem braceA_hi : braceA < 0.9373 := by
  have := sqrt3_hi
  unfold braceA
  linarith

/-- The clamp of the run's arcsine argument is the identity: the argument
already lies in `[-1, 1]` and equals `braceA`. -/
theorem braceA_clamp :
    max (-1) (min 1 ((1 * 0.1 + Real.sqrt
        (1 * 1 * 0.1 * 0.1 + (2.4 * 2.4 + 1 * 1) * (2.4 * 2.4 - 0.1 * 0.1)))
      / (2.4 * 2.4 + 1 * 1))) = braceA := by
  have h388 : (1:ℝ) * 1 * 0.1 * 0.1
      + (2.4 * 2.4 + 1 * 1) * (2.4 * 2.4 - 0.1 * 0.1) = 3.6 ^ 2 * 3 := by
    norm_num
  rw [h388, Real.sqrt_mul (by positivity), Real.sqrt_sq (by norm_num)]
  have harg : ((1:ℝ) * 0.1 + 3.6 * Real.sqrt 3) / (2.4 * 2.4 + 1 * 1)
      = braceA := by
    unfold braceA
    rw [div_eq_div_iff (by norm_num) (by norm_num)]
    ring
  rw [harg]
  rw [min_eq_right (le_of_lt (lt_of_lt_of_le braceA_hi (by norm_num)))]
  exact max_eq_right (le_trans (by norm_num) (le_of_lt braceA_lo))

/-- The run's cut cosine: `cos(π/2 − asin a) = a`. -/
theorem brace_run_cos : Real.cos (Real.pi / 2 - Real.arcsin braceA) = braceA := by
  rw [Real.cos_pi_div_two_sub,
    Real.sin_arcsin (by linarith [braceA_lo]) (by linarith [braceA_hi])]

/-- The run's cut tangent: `tan(π/2 − asin a) = √(1 − a²)/a`. -/
theorem brace_run_tan :
    Real.tan (Real.pi / 2 - Real.arcsin braceA)
      = Real.sqrt (1 - braceA ^ 2) / braceA := by
  rw [Real.tan_eq_sin_div_cos, Real.sin_pi_div_two_sub, Real.cos_arcsin,
    brace_run_cos]

/-- Evaluation of the solver at `B = 1`, `H = 2.4`, drawing width `0.1`,
`D = 0.1`: the returned angle is `asin braceA` and the outer length is the
diagonal `√((H/cos β + w·tan β)² + w²)`. -/
theorem brace_run :
    (createGartenhausBraceInfo 1 2.4 0.1 0.1).angleRad = Real.arcsin braceA ∧
    (createGartenhausBraceInfo 1 2.4 0.1 0.1).outerLength =
      Real.sqrt ((2.4 / braceA
          + 0.1 * Real.tan (Real.pi / 2 - Real.arcsin braceA)) *
        (2.4 / braceA + 0.1 * Real.tan (Real.pi / 2 - Real.arcsin braceA))
        + 0.1 * 0.1) := by
  have h3 : ¬(|Real.cos (Real.pi / 2 - Real.arcsin braceA)| < 1e-9) := by
    rw [brace_run_cos, abs_of_pos (by linarith [braceA_lo])]
    push_neg
    linarith [braceA_lo]
  constructor <;>
  · simp only [createGartenhausBraceInfo]
    rw [if_neg (by norm_num), if_neg (by norm_num), braceA_clamp, if_neg h3,
      brace_run_cos]

/-- The outer length of the `H = 2.4`, `B = 1`, `D = 0.1` run exceeds
`H / cos(90° − α)` by more than 1 cm (the drawing-width term
`w·tan β ≈ 3.7 cm` plus the diagonal's vertical leg are not accounted for
by `H / cos(90° − α)`). -/
theorem brace_gap :
    2.4 / Real.cos (Real.pi / 2
        - (createGartenhausBraceInfo 1 2.4 0.1 0.1).angleRad) + 1 / 100
      < (createGartenhausBraceInfo 1 2.4 0.1 0.1).outerLength := by
  obtain ⟨hang, hout⟩ := brace_run
  rw [hang, hout, brace_run_cos]
  have hlo := braceA_lo
  have hhi := braceA_hi
  have hApos : (0:ℝ) < braceA := by linarith
  have hs : (0.34:ℝ) < Real.sqrt (1 - braceA ^ 2) := by
    rw [show (0.34:ℝ) = Real.sqrt (0.34 ^ 2) from
      (Real.sqrt_sq (by norm_num)).symm]
    apply Real.sqrt_lt_sqrt (by norm_num)
    nlinarith
  have htan : (0.36:ℝ) < Real.tan (Real.pi / 2 - Real.arcsin braceA) := by
    rw [brace_run_tan]
    rw [lt_div_iff₀ hApos]
    nlinarith
  set t := Real.tan (Real.pi / 2 - Real.arcsin braceA) with ht
  have hp3 : (0:ℝ) < 2.4 / braceA + 0.1 * t := by
    have : (0:ℝ) < 2.4 / braceA := by positivity
    nlinarith
  have hsq : 2.4 / braceA + 0.1 * t
      ≤ Real.sqrt ((2.4 / braceA + 0.1 * t) * (2.4 / braceA + 0.1 * t)
          + 0.1 * 0.1) := by
    calc 2.4 / braceA + 0.1 * t
        = Real.sqrt ((2.4 / braceA + 0.1 * t) * (2.4 / braceA + 0.1 * t)) :=
          (Real.sqrt_mul_self (le_of_lt hp3)).symm
      _ ≤ _ := Real.sqrt_le_sqrt (by nlinarith)
  have : 2.4 / braceA + 1 / 100 < 2.4 / braceA + 0.1 * t := by nlinarith
  linarith

/-- Below a 1 cm bay width the degenerate guard returns angle `0`, so the
returned angle tends to `0` as the bay width shrinks to `0` from above. -/
theorem brace_angle_tendsto_zero :
    Filter.Tendsto (fun B => (createGartenhausBraceInfo B 2.4 0.1 0.1).angleRad)
      (nhdsWithin 0 (Set.Ioi 0)) (nhds 0) := by
  apply Filter.Tendsto.congr' _ tendsto_const_nhds
  filter_upwards [Ioo_mem_nhdsWithin_Ioi
    (show (0:ℝ) ∈ Set.Ico (0:ℝ) 0.01 from ⟨le_refl 0, by norm_num⟩)] with B hB
  show (0:ℝ) = (createGartenhausBraceInfo B 2.4 0.1 0.1).angleRad
  simp only [createGartenhausBraceInfo]
  rw [if_pos (Or.inr hB.2)]

/-- The returned angle cannot tend to `π/2` as the bay width shrinks to `0`
from above: it is eventually the constant `0` there. -/
theorem brace_not_ninety :
    ¬ Filter.Tendsto
        (fun B => (createGartenhausBraceInfo B 2.4 0.1 0.1).angleRad)
        (nhdsWithin 0 (Set.Ioi 0)) (nhds (Real.pi / 2)) := by
  intro h
  have heq := tendsto_nhds_unique brace_angle_tendsto_zero h
  have := Real.pi_pos
  rw [eq_div_iff (by norm_num)] at heq
  linarith

/-- C8 (amended): at `H = 2.4`, `B = 1.0`, `D = 0.1` (drawing width `0.1`)
the returned angle is `asin(clamp((B·D + √(B²D² + C·E))/C, −1, 1))` as
specified, but the returned outer length is the parallelogram's tip-to-tip
diagonal `√((H/cos β + w·tan β)² + w²)`, which strictly exceeds
`H / cos(90° − α)`; and as `B → 0⁺` the returned angle tends to `0` (the
degenerate-bay guard), not to `90°`. -/
theorem brace_formula_amended :
    (createGartenhausBraceInfo 1 2.4 0.1 0.1).angleRad
      = Real.arcsin (max (-1) (min 1 ((1 * 0.1 + Real.sqrt
          (1 * 1 * 0.1 * 0.1 + (2.4 * 2.4 + 1 * 1) * (2.4 * 2.4 - 0.1 * 0.1)))
        / (2.4 * 2.4 + 1 * 1)))) ∧
    2.4 / Real.cos (Real.pi / 2
        - (createGartenhausBraceInfo 1 2.4 0.1 0.1).angleRad)
      < (createGartenhausBraceInfo 1 2.4 0.1 0.1).outerLength ∧
    Filter.Tendsto
      (fun B => (createGartenhausBraceInfo B 2.4 0.1 0.1).angleRad)
      (nhdsWithin 0 (Set.Ioi 0)) (nhds 0) := by
  refine ⟨by rw [brace_run.1, braceA_clamp], ?_, brace_angle_tendsto_zero⟩
  have h := brace_gap
  linarith

/-- C8 (counterexample): at the claim's own instance `H = 2.4`, `B = 1.0`,
`D = 0.1` the outer length misses `H / cos(90° − α)` by more than 1 cm —
far beyond floating tolerance — and the angle does not approach `90°` as
`B → 0⁺` (the guard clamps it to `0`). -/
theorem brace_claim_counterexample :
    2.4 / Real.cos (Real.pi / 2
        - (createGartenhausBraceInfo 1 2.4 0.1 0.1).angleRad) + 1 / 100
      < (createGartenhausBraceInfo 1 2.4 0.1 0.1).outerLength ∧
    ¬ Filter.Tendsto
        (fun B => (createGartenhausBraceInfo B 2.4 0.1 0.1).angleRad)
        (nhdsWithin 0 (Set.Ioi 0)) (nhds (Real.pi / 2)) :=
  ⟨brace_gap, brace_not_ninety⟩

/-! ## The Gartenhaus parts list and the summary volume round-trip (C10)

`generateGartenhausPlan` (part_002) builds the parts map through `addPart`
(merge by key) and `parts.set`; `handleGenerate` (part_005, lines 397–420)
later re-derives each part's timber volume from its description string with
two regular expressions. We embed the parts-list construction over `ℝ`,
split into the source's commented sections (wall framing and sills; braces;
top plates, ceiling joists and roof; counter battens), composed in source
order. Descriptions are embedded structurally: the `Desc` type records
which of the regex-visible patterns a description carries together with the
exact printed values. The rafter drawing's `totalLength` (from
`createGartenhausSatteldachRafterDrawing`) is passed in as the
`rafterTotalLength` parameter. Division follows Lean's `x / 0 = 0`
convention. -/

/-- The shape of a part's description string, as far as the summary's two
regular expressions can see it: `boxed` is the `"…W.WxH.Hcm, Länge: L.Lcm"`
pattern (dimensions printed with `toFixed(1)` in cm), `sized` a bare
`"…W.WxH.Hcm"` with no `Länge:` clause (Rähm Stirnseite, Sparren,
Giebel-Stützpfosten), `braceL` the braces' `"…W.WxH.Hcm, L: L.Lcm"` (with
`L:`, not `Länge:`), and `batten` the `"Traglatten WxHmm (…)"` header with
integer millimetres. The stored reals are the exact values the generator
printed. -/
inductive Desc where
  | boxed (label : String) (w h l : ℝ)
  | sized (label : String) (w h : ℝ)
  | braceL (label : String) (w h l : ℝ)
  | batten (wmm hmm : ℤ)

/-- A parts-list entry: key, merged quantity, description shape, the
`createBoxDrawingInfo` arguments (length, height, width) when the part's
2D drawing is a plain box, and the attached cutting plan for battens. -/
structure PartInfo where
  key : String
  quantity : ℤ
  desc : Desc
  boxDims : Option (ℝ × ℝ × ℝ)
  cuttingPlan : Option (CuttingPlan ℝ)

/-- `addPart`: skip nonpositive quantities; merge into an existing entry of
the same key by adding quantities; else append. -/
def addPart (key : String) (q : ℤ) (d : Desc) (bd : Option (ℝ × ℝ × ℝ)) (cp : Option (CuttingPlan ℝ)) (ps : List PartInfo) : List PartInfo :=
  if q ≤ 0 then ps
  else if ps.any (fun p => p.key == key) then
    ps.map (fun p => if p.key == key then { p with quantity := p.quantity + q } else p)
  else ps ++ [⟨key, q, d, bd, cp⟩]

/-- `parts.set`: replace the entry of the key wholly, else append. -/
def setPart (key : String) (q : ℤ) (d : Desc) (bd : Option (ℝ × ℝ × ℝ)) (cp : Option (CuttingPlan ℝ)) (ps : List PartInfo) : List PartInfo :=
  if ps.any (fun p => p.key == key) then
    ps.map (fun p => if p.key == key then ⟨key, q, d, bd, cp⟩ else p)
  else ps ++ [⟨key, q, d, bd, cp⟩]

/-- The parameter record of `generateGartenhausPlan`. -/
structure GartenhausParams where
  W : ℝ
  D : ℝ
  H : ℝ
  roofType : RoofType
  roofOverhang : ℝ
  roofPitch : ℝ
  BEAM_W : ℝ
  BEAM_H : ℝ
  RAFTER_W : ℝ
  RAFTER_H : ℝ
  BRACE_DIM : ℝ
  STUD_D : ℝ
  COUNTER_BATTEN_W : ℝ
  COUNTER_BATTEN_H : ℝ
  middlePurlin : Option (ℝ × ℝ)
  useKingPosts : Bool

/-- Wall framing and sills (part_002 lines 36–57): studs on both wall
pairs from `calculateStudLayout`, then the four sills. -/
noncomputable def gartenhausWallSillParts (prm : GartenhausParams) : List PartInfo :=
  let STUD_THICKNESS : ℝ := 0.055
  let SILL_H : ℝ := 0.08
  let SILL_W := prm.STUD_D
  let TOP_PLATE_H := if 0.1 < prm.BEAM_H then prm.BEAM_H else 0.12
  let wallHeight := prm.H - SILL_H - TOP_PLATE_H
  let studDesc := Desc.boxed "Ständer" prm.STUD_D STUD_THICKNESS wallHeight
  let standardStudSpacing : ℝ := 0.625
  let gableWallLength := prm.W - 2 * prm.STUD_D
  let gableLayout := calculateStudLayout gableWallLength STUD_THICKNESS standardStudSpacing
  let ps : List PartInfo := []
  let ps := addPart "stud_gable" ((gableLayout.positions.length : ℤ) * 2) studDesc (some (wallHeight, prm.STUD_D, STUD_THICKNESS)) none ps
  let sideLayout := calculateStudLayout prm.D STUD_THICKNESS standardStudSpacing
  let ps := addPart "stud_side" ((sideLayout.positions.length : ℤ) * 2) studDesc (some (wallHeight, prm.STUD_D, STUD_THICKNESS)) none ps
  let ps := addPart "sill_d" 2 (Desc.boxed "Schwelle Längsseite" SILL_W SILL_H prm.D) (some (prm.D, SILL_H, SILL_W)) none ps
  addPart "sill_w" 2 (Desc.boxed "Schwelle Stirnseite" SILL_W SILL_H gableWallLength) (some (gableWallLength, SILL_H, SILL_W)) none ps

/-- Braces (part_002 lines 59–104): first/last bay of the gable and side
walls, guarded by bay width; the brace descriptions use `"L:"` and the
drawing is not a box. -/
noncomputable def gartenhausBraceParts (prm : GartenhausParams) (ps : List PartInfo) : List PartInfo :=
  let STUD_THICKNESS : ℝ := 0.055
  let SILL_H : ℝ := 0.08
  let TOP_PLATE_H := if 0.1 < prm.BEAM_H then prm.BEAM_H else 0.12
  let wallHeight := prm.H - SILL_H - TOP_PLATE_H
  let standardStudSpacing : ℝ := 0.625
  let gableLayout := calculateStudLayout (prm.W - 2 * prm.STUD_D) STUD_THICKNESS standardStudSpacing
  let sideLayout := calculateStudLayout prm.D STUD_THICKNESS standardStudSpacing
  let ps :=
    if 0 < gableLayout.spacings.length then
      let firstBayWidth := gableLayout.spacings.headI - STUD_THICKNESS
      let ps :=
        if STUD_THICKNESS * 0.5 < firstBayWidth then
          let bi := createGartenhausBraceInfo firstBayWidth wallHeight STUD_THICKNESS STUD_THICKNESS
          addPart ("brace_gable_bay1_" ++ toString (round (firstBayWidth * 1000))) 2 (Desc.braceL "Strebe Giebelwand (Feld 1)" prm.STUD_D STUD_THICKNESS bi.outerLength) none none ps
        else ps
      if 1 < gableLayout.spacings.length then
        let lastBayWidth := gableLayout.spacings.getLastD 0 - STUD_THICKNESS
        if STUD_THICKNESS * 0.5 < lastBayWidth then
          let bi := createGartenhausBraceInfo lastBayWidth wallHeight STUD_THICKNESS STUD_THICKNESS
          addPart ("brace_gable_bay_last_" ++ toString (round (lastBayWidth * 1000))) 2 (Desc.braceL "Strebe Giebelwand (letztes Feld)" prm.STUD_D STUD_THICKNESS bi.outerLength) none none ps
        else ps
      else ps
    else ps
  if 0 < sideLayout.spacings.length then
    let firstBayWidth := sideLayout.spacings.headI - STUD_THICKNESS
    let ps :=
      if STUD_THICKNESS * 0.5 < firstBayWidth then
        let bi := createGartenhausBraceInfo firstBayWidth wallHeight STUD_THICKNESS STUD_THICKNESS
        addPart ("brace_side_bay1_" ++ toString (round (firstBayWidth * 1000))) 2 (Desc.braceL "Strebe Längswand (Feld 1)" prm.STUD_D STUD_THICKNESS bi.outerLength) none none ps
      else ps
    if 1 < sideLayout.spacings.length then
      let lastBayWidth := sideLayout.spacings.getLastD 0 - STUD_THICKNESS
      if STUD_THICKNESS * 0.5 < lastBayWidth then
        let bi := createGartenhausBraceInfo lastBayWidth wallHeight STUD_THICKNESS STUD_THICKNESS
        addPart ("brace_side_bay_last_" ++ toString (round (lastBayWidth * 1000))) 2 (Desc.braceL "Strebe Längswand (letztes Feld)" prm.STUD_D STUD_THICKNESS bi.outerLength) none none ps
      else ps
    else ps
  else ps

/-- Top plates, ceiling joists and the Satteldach roof members (part_002
lines 106–174): the Rähm Stirnseite (`top_plate_w`) and Sparren
descriptions carry no `Länge:` clause and the Giebel-Stützpfosten none at
all; returns the parts together with the rafter length used by the batten
section. -/
noncomputable def gartenhausRoofParts (prm : GartenhausParams) (rafterTotalLength : ℝ) (ps : List PartInfo) : List PartInfo × ℝ :=
  let STUD_THICKNESS : ℝ := 0.055
  let TOP_PLATE_H := if 0.1 < prm.BEAM_H then prm.BEAM_H else 0.12
  let TOP_PLATE_W := if 0.08 < prm.BEAM_W then prm.BEAM_W else 0.10
  let gableWallLength := prm.W - 2 * prm.STUD_D
  let plateTopY := prm.H
  let rafterAndJoistTotalCount : ℤ := max 2 (⌊prm.D / 0.8⌋ + 1)
  let sidePlateLength := prm.D + 2 * prm.roofOverhang
  let ps := addPart "top_plate_d" 2 (Desc.boxed "Fusspfette Längsseite" TOP_PLATE_W TOP_PLATE_H sidePlateLength) (some (sidePlateLength, TOP_PLATE_H, TOP_PLATE_W)) none ps
  let ps := addPart "top_plate_w" 2 (Desc.sized "Rähm Stirnseite" TOP_PLATE_W TOP_PLATE_H) (some (gableWallLength, TOP_PLATE_H, TOP_PLATE_W)) none ps
  let ps :=
    if prm.useKingPosts then
      let ceilingJoistLength := prm.W - 2 * TOP_PLATE_W
      setPart "ceiling_joist" rafterAndJoistTotalCount (Desc.boxed "Deckenträger/Zange" prm.RAFTER_W TOP_PLATE_H ceilingJoistLength) (some (ceilingJoistLength, TOP_PLATE_H, prm.RAFTER_W)) none ps
    else ps
  if prm.roofType = RoofType.Satteldach then
    let ridgePurlinLength := prm.D + 2 * prm.roofOverhang
    let ps := setPart "ridge_beam" 1 (Desc.boxed "Firstpfette" prm.BEAM_W prm.BEAM_H ridgePurlinLength) (some (ridgePurlinLength, prm.BEAM_H, prm.BEAM_W)) none ps
    let tanA := Real.tan (prm.roofPitch * Real.pi / 180)
    let ridgeBeamHalfWidth := prm.BEAM_W / 2
    let plateInnerX := prm.W / 2 - TOP_PLATE_W
    let ridgeNotchDepth := prm.RAFTER_H / 3
    let ridgeSeatY := -tanA * (|ridgeBeamHalfWidth| - plateInnerX) + plateTopY + ridgeNotchDepth
    let ridgeBeamCenterY := ridgeSeatY - prm.BEAM_H / 2
    let ridgeBeamBottomY := ridgeBeamCenterY - prm.BEAM_H / 2
    let ps :=
      if prm.useKingPosts then
        let kingPostHeight := ridgeBeamBottomY - plateTopY
        if 0.1 < kingPostHeight then
          addPart "king_post" rafterAndJoistTotalCount (Desc.boxed "First-Stütze" prm.RAFTER_W prm.BEAM_W kingPostHeight) (some (kingPostHeight, prm.BEAM_W, prm.RAFTER_W)) none ps
        else ps
      else ps
    let gablePostHeight := ridgeBeamBottomY - prm.H
    let ps :=
      if 0.1 < gablePostHeight then
        addPart "gable_post" 2 (Desc.sized "Giebel-Stützpfosten" prm.STUD_D STUD_THICKNESS) (some (gablePostHeight, prm.STUD_D, STUD_THICKNESS)) none ps
      else ps
    let rafterAndJoistSpacing := if 1 < rafterAndJoistTotalCount then (prm.D - prm.RAFTER_W) / ((rafterAndJoistTotalCount : ℝ) - 1) else 0
    let numTotalRafters := rafterAndJoistTotalCount + max 0 (⌈2 * prm.roofOverhang / rafterAndJoistSpacing⌉ - 2)
    let ps := addPart "rafter" (numTotalRafters * 2) (Desc.sized "Sparren" prm.RAFTER_W prm.RAFTER_H) none none ps
    (ps, rafterTotalLength)
  else (ps, 0)

/-- Counter battens (part_002 lines 176–194): one `counter_batten` entry
carrying the cutting plan over 5 m stock with 5 mm kerf. -/
noncomputable def gartenhausBattenParts (prm : GartenhausParams) (pr : List PartInfo × ℝ) : List PartInfo :=
  let ps := pr.1
  let rafterLength := pr.2
  if 0 < prm.COUNTER_BATTEN_W ∧ 0 < prm.COUNTER_BATTEN_H ∧ 0.1 < rafterLength then
    let numRowsPerSlope : ℤ := ⌈rafterLength / 0.35⌉
    let battenRowLength := prm.D + 2 * prm.roofOverhang
    let allCuts := List.replicate ((numRowsPerSlope * (if prm.roofType = RoofType.Satteldach then 2 else 1)).toNat) battenRowLength
    if 0 < allCuts.length then
      let plan := optimizeCuttingList allCuts 5.0 0.005
      addPart "counter_batten" 1 (Desc.batten (round (prm.COUNTER_BATTEN_W * 1000)) (round (prm.COUNTER_BATTEN_H * 1000))) none (some plan) ps
    else ps
  else ps

/-- The parts list of `generateGartenhausPlan`: the four sections composed
in source order. -/
noncomputable def generateGartenhausPlan (prm : GartenhausParams) (rafterTotalLength : ℝ) : List PartInfo :=
  gartenhausBattenParts prm
    (gartenhausRoofParts prm rafterTotalLength
      (gartenhausBraceParts prm (gartenhausWallSillParts prm)))

/-- `plan.bins.reduce((sum, bin) => sum + bin.count, 0)`: the stock count
of a cutting plan. -/
def numStockOf (plan : CuttingPlan ℝ) : ℕ :=
  plan.bins.foldl (fun s b => s + b.count) 0

/-- `parseFloat((x*100).toFixed(1))/100`: the value a printed dimension
parses back to, in metres — the exact value rounded to 0.1 cm. -/
noncomputable def parsedDim (x : ℝ) : ℝ := (round (1000 * x) : ℝ) / 1000

/-- The summary's per-part volume derivation (part_005 lines 397–420):
cutting-plan parts are matched against `/(\d+)x(\d+)mm/` — only the batten
header matches — and contribute cross-section times stock length times
stock count; other parts are matched against
`/(\d+\.\d+)x(\d+\.\d+)cm, Länge: (\d+\.\d+)cm/` — only `boxed`
descriptions contain the `", Länge: "` clause — and contribute the
parsed-back dimensions times quantity; every other description shape
contributes zero. -/
noncomputable def descVolume (p : PartInfo) : ℝ :=
  match p.cuttingPlan with
  | some plan =>
    match p.desc with
    | Desc.batten wmm hmm =>
        ((wmm : ℝ) / 1000) * ((hmm : ℝ) / 1000) * plan.stockLength * (numStockOf plan : ℝ)
    | _ => 0
  | none =>
    match p.desc with
    | Desc.boxed _ w h l => parsedDim w * parsedDim h * parsedDim l * (p.quantity : ℝ)
    | _ => 0

/-- A part whose description carries no pattern the non-cutting regex can
match (`sized`) contributes zero to the summary volume. -/
theorem descVolume_sized (p : PartInfo) (lbl : String) (w h : ℝ)
    (hd : p.desc = Desc.sized lbl w h) : descVolume p = 0 := by
  rcases p with ⟨k, q, d, bd, cp⟩
  cases hd
  cases cp <;> rfl

/-- A brace part (`"L:"` rather than `"Länge:"`) contributes zero to the
summary volume. -/
theorem descVolume_braceL (p : PartInfo) (lbl : String) (w h l : ℝ)
    (hd : p.desc = Desc.braceL lbl w h l) : descVolume p = 0 := by
  rcases p with ⟨k, q, d, bd, cp⟩
  cases hd
  cases cp <;> rfl

/-- A `boxed` part without a cutting plan contributes its parsed-back
dimensions times its quantity. -/
theorem descVolume_boxed (p : PartInfo) (lbl : String) (w h l : ℝ)
    (hcp : p.cuttingPlan = none) (hd : p.desc = Desc.boxed lbl w h l) :
    descVolume p = parsedDim w * parsedDim h * parsedDim l * (p.quantity : ℝ) := by
  rcases p with ⟨k, q, d, bd, cp⟩
  cases hcp
  cases hd
  rfl

/-- Printing at 0.1 cm resolution and parsing back moves a dimension by at
most half a millimetre. -/
theorem parsedDim_close (x : ℝ) : |parsedDim x - x| ≤ 1 / 2000 := by
  unfold parsedDim
  have h := abs_sub_round (1000 * x)
  rw [show (round (1000 * x) : ℝ) / 1000 - x
      = ((round (1000 * x) : ℝ) - 1000 * x) / 1000 by ring]
  rw [abs_div, abs_of_pos (by norm_num : (0:ℝ) < 1000)]
  rw [abs_sub_comm]
  linarith

/-- The structural round-trip invariant of a parts-list entry: a `boxed`
description has no cutting plan and box-drawing dimensions whose product is
the printed product; a batten carries a cutting plan. -/
def GoodPart (p : PartInfo) : Prop :=
  (∀ lbl w h l, p.desc = Desc.boxed lbl w h l →
    p.cuttingPlan = none ∧
    ∃ d1 d2 d3, p.boxDims = some (d1, d2, d3) ∧ d1 * d2 * d3 = w * h * l) ∧
  (∀ wmm hmm, p.desc = Desc.batten wmm hmm → ∃ pl, p.cuttingPlan = some pl)

/-- Merging quantities preserves the structural invariant. -/
theorem goodPart_quantity : ∀ (p : PartInfo) (q : ℤ), GoodPart p →
    GoodPart { p with quantity := q } := by
  rintro ⟨k, q0, d, bd, cp⟩ q h
  exact h

/-- The invariant at a boxed insertion site (any dimension order of equal
product). -/
theorem goodPart_boxed (key : String) (q : ℤ) (lbl : String) (w h l d1 d2 d3 : ℝ)
    (hprod : d1 * d2 * d3 = w * h * l) :
    GoodPart ⟨key, q, Desc.boxed lbl w h l, some (d1, d2, d3), none⟩ := by
  constructor
  · intro lbl2 w2 h2 l2 hd
    simp only [Desc.boxed.injEq] at hd
    obtain ⟨-, rfl, rfl, rfl⟩ := hd
    exact ⟨rfl, d1, d2, d3, rfl, hprod⟩
  · intro wmm hmm hd
    simp at hd

/-- The invariant at a `sized` insertion site. -/
theorem goodPart_sized (key : String) (q : ℤ) (lbl : String) (w h : ℝ)
    (bd : Option (ℝ × ℝ × ℝ)) :
    GoodPart ⟨key, q, Desc.sized lbl w h, bd, none⟩ := by
  constructor
  · intro lbl2 w2 h2 l2 hd
    simp at hd
  · intro wmm hmm hd
    simp at hd

/-- The invariant at a brace insertion site. -/
theorem goodPart_braceL (key : String) (q : ℤ) (lbl : String) (w h l : ℝ) :
    GoodPart ⟨key, q, Desc.braceL lbl w h l, none, none⟩ := by
  constructor
  · intro lbl2 w2 h2 l2 hd
    simp at hd
  · intro wmm hmm hd
    simp at hd

/-- The invariant at the batten insertion site. -/
theorem goodPart_batten (key : String) (q : ℤ) (wmm hmm : ℤ)
    (pl : CuttingPlan ℝ) :
    GoodPart ⟨key, q, Desc.batten wmm hmm, none, some pl⟩ := by
  constructor
  · intro lbl2 w2 h2 l2 hd
    simp at hd
  · intro wmm2 hmm2 hd
    exact ⟨pl, rfl⟩

/-- `addPart` preserves any quantity-insensitive pointwise property when
the inserted entry has it. -/
theorem addPart_good {P : PartInfo → Prop}
    (hP : ∀ (p : PartInfo) (q : ℤ), P p → P { p with quantity := q })
    (key : String) (q : ℤ) (d : Desc) (bd : Option (ℝ × ℝ × ℝ))
    (cp : Option (CuttingPlan ℝ)) (ps : List PartInfo)
    (hps : ∀ p ∈ ps, P p) (hnew : P ⟨key, q, d, bd, cp⟩) :
    ∀ p ∈ addPart key q d bd cp ps, P p := by
  intro p hp
  unfold addPart at hp
  split_ifs at hp with h1 h2
  · exact hps p hp
  · obtain ⟨p0, hp0, heq⟩ := List.mem_map.mp hp
    by_cases hk : (p0.key == key) = true
    · rw [if_pos hk] at heq
      exact heq ▸ hP p0 _ (hps p0 hp0)
    · rw [if_neg hk] at heq
      exact heq ▸ hps p0 hp0
  · rcases List.mem_append.mp hp with h | h
    · exact hps p h
    · rw [List.mem_singleton] at h
      exact h ▸ hnew

/-- `parts.set` preserves any pointwise property when the inserted entry
has it. -/
theorem setPart_good {P : PartInfo → Prop}
    (key : String) (q : ℤ) (d : Desc) (bd : Option (ℝ × ℝ × ℝ))
    (cp : Option (CuttingPlan ℝ)) (ps : List PartInfo)
    (hps : ∀ p ∈ ps, P p) (hnew : P ⟨key, q, d, bd, cp⟩) :
    ∀ p ∈ setPart key q d bd cp ps, P p := by
  intro p hp
  unfold setPart at hp
  split_ifs at hp with h1
  · obtain ⟨p0, hp0, heq⟩ := List.mem_map.mp hp
    by_cases hk : (p0.key == key) = true
    · rw [if_pos hk] at heq
      exact heq ▸ hnew
    · rw [if_neg hk] at heq
      exact heq ▸ hps p0 hp0
  · rcases List.mem_append.mp hp with h | h
    · exact hps p h
    · rw [List.mem_singleton] at h
      exact h ▸ hnew

/-- Pointwise properties pass through a conditional between part lists. -/
theorem forall_ite {P : PartInfo → Prop} (c : Prop) [Decidable c]
    (A B : List PartInfo) (hA : ∀ p ∈ A, P p) (hB : ∀ p ∈ B, P p) :
    ∀ p ∈ (if c then A else B), P p := by
  split_ifs
  exacts [hA, hB]

/-- Pointwise properties pass through a conditional between part-list /
length pairs. -/
theorem forall_ite_fst {P : PartInfo → Prop} (c : Prop) [Decidable c]
    (A B : List PartInfo × ℝ) (hA : ∀ p ∈ A.1, P p) (hB : ∀ p ∈ B.1, P p) :
    ∀ p ∈ (if c then A else B).1, P p := by
  split_ifs
  exacts [hA, hB]

/-- The empty parts list satisfies everything. -/
theorem forall_nil {P : PartInfo → Prop} :
    ∀ p ∈ ([] : List PartInfo), P p := by
  intro p hp
  exact absurd hp (List.not_mem_nil p)

/-- Every wall or sill part satisfies the structural invariant. -/
theorem gartenhausWallSillParts_good (prm : GartenhausParams) :
    ∀ p ∈ gartenhausWallSillParts prm, GoodPart p := by
  unfold gartenhausWallSillParts
  repeat'
    first
      | exact forall_nil
      | exact goodPart_braceL _ _ _ _ _ _
      | exact goodPart_sized _ _ _ _ _ _
      | exact goodPart_batten _ _ _ _ _
      | exact goodPart_boxed _ _ _ _ _ _ _ _ _ (by ring)
      | apply addPart_good goodPart_quantity
      | apply setPart_good
      | apply forall_ite_fst
      | apply forall_ite

/-- The brace section preserves the structural invariant. -/
theorem gartenhausBraceParts_good (prm : GartenhausParams) (ps : List PartInfo)
    (hps : ∀ p ∈ ps, GoodPart p) :
    ∀ p ∈ gartenhausBraceParts prm ps, GoodPart p := by
  unfold gartenhausBraceParts
  repeat'
    first
      | exact hps
      | exact goodPart_braceL _ _ _ _ _ _
      | exact goodPart_sized _ _ _ _ _ _
      | exact goodPart_batten _ _ _ _ _
      | exact goodPart_boxed _ _ _ _ _ _ _ _ _ (by ring)
      | apply addPart_good goodPart_quantity
      | apply setPart_good
      | apply forall_ite_fst
      | apply forall_ite

/-- The plate and roof section preserves the structural invariant. -/
theorem gartenhausRoofParts_good (prm : GartenhausParams) (rtl : ℝ)
    (ps : List PartInfo) (hps : ∀ p ∈ ps, GoodPart p) :
    ∀ p ∈ (gartenhausRoofParts prm rtl ps).1, GoodPart p := by
  unfold gartenhausRoofParts
  repeat'
    first
      | exact hps
      | exact goodPart_braceL _ _ _ _ _ _
      | exact goodPart_sized _ _ _ _ _ _
      | exact goodPart_batten _ _ _ _ _
      | exact goodPart_boxed _ _ _ _ _ _ _ _ _ (by ring)
      | apply addPart_good goodPart_quantity
      | apply setPart_good
      | apply forall_ite_fst
      | apply forall_ite

/-- The batten section preserves the structural invariant. -/
theorem gartenhausBattenParts_good (prm : GartenhausParams)
    (pr : List PartInfo × ℝ) (hps : ∀ p ∈ pr.1, GoodPart p) :
    ∀ p ∈ gartenhausBattenParts prm pr, GoodPart p := by
  unfold gartenhausBattenParts
  repeat'
    first
      | exact hps
      | exact goodPart_braceL _ _ _ _ _ _
      | exact goodPart_sized _ _ _ _ _ _
      | exact goodPart_batten _ _ _ _ _
      | exact goodPart_boxed _ _ _ _ _ _ _ _ _ (by ring)
      | apply addPart_good goodPart_quantity
      | apply setPart_good
      | apply forall_ite_fst
      | apply forall_ite

/-- Every part of every generated plan satisfies the structural
invariant. -/
theorem generateGartenhausPlan_good (prm : GartenhausParams) (rtl : ℝ) :
    ∀ p ∈ generateGartenhausPlan prm rtl, GoodPart p := by
  unfold generateGartenhausPlan
  exact gartenhausBattenParts_good prm _
    (gartenhausRoofParts_good prm rtl _
      (gartenhausBraceParts_good prm _ (gartenhausWallSillParts_good prm)))

/-- An entry inserted on a fresh key with positive quantity is in the
list. -/
theorem self_mem_addPart (key : String) (q : ℤ) (d : Desc)
    (bd : Option (ℝ × ℝ × ℝ)) (cp : Option (CuttingPlan ℝ))
    (ps : List PartInfo)
    (hq : ¬ q ≤ 0) (hks : ∀ p ∈ ps, p.key ≠ key) :
    (⟨key, q, d, bd, cp⟩ : PartInfo) ∈ addPart key q d bd cp ps := by
  have hany : ¬ (ps.any (fun p => p.key == key) = true) := by
    intro hc
    obtain ⟨p, hp, hb⟩ := List.any_eq_true.mp hc
    exact hks p hp (by simpa using hb)
  unfold addPart
  rw [if_neg hq, if_neg hany]
  exact List.mem_append_right _ (List.mem_singleton_self _)

/-- A key built by appending to a strictly longer literal never equals a
shorter literal. -/
theorem brace_key_ne (pre t s : String) (h : s.length < pre.length) :
    pre ++ t ≠ s := by
  intro he
  have hl := congrArg String.length he
  rw [String.length_append] at hl
  omega

/-- Key disequality is insensitive to quantity merges. -/
theorem keyNe_quantity (s : String) : ∀ (p : PartInfo) (q : ℤ),
    p.key ≠ s → ({ p with quantity := q } : PartInfo).key ≠ s :=
  fun p q h => h

/-- No wall or sill part uses the key `top_plate_w`. -/
theorem wallSill_keyNe (prm : GartenhausParams) :
    ∀ p ∈ gartenhausWallSillParts prm, p.key ≠ "top_plate_w" := by
  unfold gartenhausWallSillParts
  repeat'
    first
      | exact forall_nil
      | exact brace_key_ne _ _ _ (by decide)
      | (intro he; simp at he)
      | apply addPart_good (keyNe_quantity "top_plate_w")
      | apply setPart_good
      | apply forall_ite_fst
      | apply forall_ite

/-- No brace part uses the key `top_plate_w`. -/
theorem braceParts_keyNe (prm : GartenhausParams) (ps : List PartInfo)
    (hps : ∀ p ∈ ps, p.key ≠ "top_plate_w") :
    ∀ p ∈ gartenhausBraceParts prm ps, p.key ≠ "top_plate_w" := by
  unfold gartenhausBraceParts
  repeat'
    first
      | exact hps
      | exact brace_key_ne _ _ _ (by decide)
      | (intro he; simp at he)
      | apply addPart_good (keyNe_quantity "top_plate_w")
      | apply setPart_good
      | apply forall_ite_fst
      | apply forall_ite

/-- The Rähm Stirnseite entry of any plan without king posts and with a
non-Satteldach roof: key `top_plate_w`, quantity 2, a `sized` description,
and the box dimensions the kernel sized it with. -/
theorem top_plate_w_mem_roof (prm : GartenhausParams) (rtl : ℝ)
    (hkp : prm.useKingPosts = false)
    (hrt : ¬ prm.roofType = RoofType.Satteldach) :
    (⟨"top_plate_w", 2,
      Desc.sized "Rähm Stirnseite" (if 0.08 < prm.BEAM_W then prm.BEAM_W else 0.10)
        (if 0.1 < prm.BEAM_H then prm.BEAM_H else 0.12),
      some (prm.W - 2 * prm.STUD_D, (if 0.1 < prm.BEAM_H then prm.BEAM_H else 0.12),
        (if 0.08 < prm.BEAM_W then prm.BEAM_W else 0.10)), none⟩ : PartInfo)
      ∈ (gartenhausRoofParts prm rtl
          (gartenhausBraceParts prm (gartenhausWallSillParts prm))).1 := by
  unfold gartenhausRoofParts
  rw [if_neg hrt, if_neg (show ¬ (prm.useKingPosts = true) by
    rw [hkp]; exact Bool.false_ne_true)]
  apply self_mem_addPart
  · decide
  · apply addPart_good (keyNe_quantity "top_plate_w")
    · exact braceParts_keyNe prm _ (wallSill_keyNe prm)
    · intro he
      simp at he

/-- The configuration of the C10 counterexample run: a 0.5 m × 0.1 m ×
0.205 m Pultdach hut, no king posts, no battens, beam 12 × 12 cm. -/
def c10params : GartenhausParams :=
  { W := 0.5, D := 0.1, H := 0.205, roofType := RoofType.Pultdach,
    roofOverhang := 0, roofPitch := 0, BEAM_W := 0.12, BEAM_H := 0.12,
    RAFTER_W := 0.08, RAFTER_H := 0.16, BRACE_DIM := 0.1, STUD_D := 0.12,
    COUNTER_BATTEN_W := 0, COUNTER_BATTEN_H := 0, middlePurlin := none,
    useKingPosts := false }

/-- The concrete Rähm Stirnseite entry of the counterexample plan. -/
theorem counterexample_mem :
    (⟨"top_plate_w", 2, Desc.sized "Rähm Stirnseite" 0.12 0.12,
      some (0.26, 0.12, 0.12), none⟩ : PartInfo)
      ∈ generateGartenhausPlan c10params 0 := by
  have h := top_plate_w_mem_roof c10params 0 rfl (by decide)
  have he : (⟨"top_plate_w", 2,
      Desc.sized "Rähm Stirnseite"
        (if 0.08 < c10params.BEAM_W then c10params.BEAM_W else 0.10)
        (if 0.1 < c10params.BEAM_H then c10params.BEAM_H else 0.12),
      some (c10params.W - 2 * c10params.STUD_D,
        (if 0.1 < c10params.BEAM_H then c10params.BEAM_H else 0.12),
        (if 0.08 < c10params.BEAM_W then c10params.BEAM_W else 0.10)),
      none⟩ : PartInfo)
      = ⟨"top_plate_w", 2, Desc.sized "Rähm Stirnseite" 0.12 0.12,
        some (0.26, 0.12, 0.12), none⟩ := by
    norm_num [c10params]
  rw [he] at h
  unfold generateGartenhausPlan gartenhausBattenParts
  rw [if_neg (show ¬ ((0:ℝ) < c10params.COUNTER_BATTEN_W ∧
    (0:ℝ) < c10params.COUNTER_BATTEN_H ∧
    (0.1:ℝ) < (gartenhausRoofParts c10params 0 (gartenhausBraceParts c10params
      (gartenhausWallSillParts c10params))).2)
    from fun hc => by norm_num [c10params] at hc)]
  exact h

/-- C10 (counterexample): the plan of a 0.5 × 0.1 × 0.205 m Pultdach hut
contains the Rähm Stirnseite part (`top_plate_w`), sized internally as a
0.26 × 0.12 × 0.12 m box in quantity 2 (volume 0.007488 m³), whose
description carries no `"Länge:"` clause, so the summary's regex derivation
assigns it volume 0 — off by more than the 1/200 m³ tolerance, far beyond
rounding. -/
theorem volume_roundtrip_counterexample :
    ∃ p ∈ generateGartenhausPlan c10params 0,
      p.key = "top_plate_w" ∧ descVolume p = 0 ∧
      p.boxDims = some (0.26, 0.12, 0.12) ∧ p.quantity = 2 ∧
      1 / 200 < |0.26 * 0.12 * 0.12 * (p.quantity : ℝ) - descVolume p| := by
  have hdv : descVolume (⟨"top_plate_w", 2, Desc.sized "Rähm Stirnseite" 0.12 0.12,
      some (0.26, 0.12, 0.12), none⟩ : PartInfo) = 0 :=
    descVolume_sized _ _ _ _ rfl
  refine ⟨_, counterexample_mem, rfl, hdv, rfl, rfl, ?_⟩
  rw [hdv, sub_zero, abs_of_pos (by norm_num)]
  norm_num

/-- C10 (amended): in every generated Gartenhaus plan, a part whose
description carries the `"WxHcm, Länge: Lcm"` pattern re-derives, from the
printed dimensions times its quantity, a volume whose every dimension is
within 0.5 mm of the exact box dimensions the kernel sized the part with
(equal products); but a part whose description lacks the `"Länge:"` clause
— the Rähm Stirnseite, the Sparren, the Giebel-Stützpfosten and all braces
(which print `"L:"` instead) — contributes exactly zero to the summary
volume, regardless of its real size. -/
theorem volume_roundtrip_amended (prm : GartenhausParams) (rafterTotalLength : ℝ) :
    (generateGartenhausPlan prm rafterTotalLength).Forall (fun p =>
      (∀ lbl w h l, p.desc = Desc.boxed lbl w h l →
        descVolume p = parsedDim w * parsedDim h * parsedDim l * (p.quantity : ℝ) ∧
        |parsedDim w - w| ≤ 1 / 2000 ∧ |parsedDim h - h| ≤ 1 / 2000 ∧
        |parsedDim l - l| ≤ 1 / 2000 ∧
        (∃ d1 d2 d3, p.boxDims = some (d1, d2, d3) ∧ d1 * d2 * d3 = w * h * l)) ∧
      (∀ lbl w h, p.desc = Desc.sized lbl w h → descVolume p = 0) ∧
      (∀ lbl w h l, p.desc = Desc.braceL lbl w h l → descVolume p = 0)) := by
  rw [List.forall_iff_forall_mem]
  intro p hp
  have hg := generateGartenhausPlan_good prm rafterTotalLength p hp
  refine ⟨?_, ?_, ?_⟩
  · intro lbl w h l hd
    obtain ⟨hcp, d1, d2, d3, hbd, hprod⟩ := hg.1 lbl w h l hd
    exact ⟨descVolume_boxed p lbl w h l hcp hd, parsedDim_close w,
      parsedDim_close h, parsedDim_close l, d1, d2, d3, hbd, hprod⟩
  · intro lbl w h hd
    exact descVolume_sized p lbl w h hd
  · intro lbl w h l hd
    exact descVolume_braceL p lbl w h l hd

/-- Witness for C3 at `L = 2`, `t = 1/10`, `s = 1/2`. -/
theorem studLayout_spec_witness :
    List.Chain' (· < ·) (calculateStudLayout (2:ℚ) (1/10) (1/2)).positions ∧
    (calculateStudLayout (2:ℚ) (1/10) (1/2)).positions.head?
      = some ((1:ℚ)/10/2) ∧
    (calculateStudLayout (2:ℚ) (1/10) (1/2)).positions.getLast?
      = some (2 - (1:ℚ)/10/2) ∧
    ∀ d ∈ (calculateStudLayout (2:ℚ) (1/10) (1/2)).spacings.dropLast,
      d ≤ (1:ℚ)/2 :=
  (studLayout_spec 2 (1/10) (1/2) (by norm_num) (by norm_num)).1 (by norm_num)

end Holzbau
